import Mathlib

/-
Verification of the ranking / day-partitioned route-optimization core of the
Travel-Genius-App repository.

The TypeScript sources are shallowly embedded: JavaScript numbers are modelled
as real numbers (`ℝ`), `undefined`-able fields as `Option`, dates at day
granularity as `ℤ` (days since the Unix epoch, so `getDay` is `(d + 4) % 7`),
and in-place mutation of candidate records is modelled with an explicit
arena/store of records addressed by index, exactly mirroring JavaScript
reference semantics.  Fallible code paths (a `TypeError` on an empty lodging
list) are modelled with `Option`.  Floating-point rounding, `NaN` propagation
for malformed time strings and JavaScript's decimal rendering of numbers in
informational strings are outside the model: `toFixed(k)` is modelled as exact
rounding to `k` decimals, and number-to-string interpolation (used only inside
human-readable `matchReason` texts, which no algorithmic decision reads) is
modelled by `realToString`.
-/

noncomputable section

open Classical

/-- JavaScript's `Math.atan2(y, x)`. Signed zeros are not modelled. -/
def atan2 (y x : ℝ) : ℝ :=
  if 0 < x then Real.arctan (y / x)
  else if x < 0 then
    (if 0 ≤ y then Real.arctan (y / x) + Real.pi else Real.arctan (y / x) - Real.pi)
  else
    (if 0 < y then Real.pi / 2 else if y < 0 then -(Real.pi / 2) else 0)

/-- Haversine great-circle distance in km, as in `calculateDistance` (the same
function is repeated verbatim in every iteration of the source). -/
def calculateDistance (lat1 lon1 lat2 lon2 : ℝ) : ℝ :=
  let R : ℝ := 6371
  let dLat := (lat2 - lat1) * (Real.pi / 180)
  let dLon := (lon2 - lon1) * (Real.pi / 180)
  let a :=
    Real.sin (dLat / 2) * Real.sin (dLat / 2) +
    Real.cos (lat1 * (Real.pi / 180)) * Real.cos (lat2 * (Real.pi / 180)) *
    (Real.sin (dLon / 2) * Real.sin (dLon / 2))
  let c := 2 * atan2 (Real.sqrt a) (Real.sqrt (1 - a))
  R * c

/-! ## Data model

JavaScript records from `types.ts`, with `undefined`-able fields as `Option`.
Dates are modelled at day granularity as integers (days since the Unix epoch,
which was a Thursday, so `Date.getDay()` is `(d + 4) % 7`); the source strips
time-of-day with `setHours(0,0,0,0)` everywhere it compares dates. -/

def dayOfWeek (d : ℤ) : ℤ := (d + 4) % 7

/-- `x.toFixed(1)` followed by `parseFloat`: exact rounding to one decimal. -/
def round1 (x : ℝ) : ℝ := (round (x * 10) : ℤ) / 10

/-- `x.toFixed(2)` followed by `parseFloat`: exact rounding to two decimals. -/
def round2 (x : ℝ) : ℝ := (round (x * 100) : ℤ) / 100

/-- JavaScript's decimal rendering of a number inside a template literal.
It only ever feeds human-readable `matchReason` texts, which no algorithmic
decision reads, so its value is irrelevant to every property proved here and
it is not modelled. -/
def realToString (_ : ℝ) : String := ""

/-- Decimal value of a digit character. -/
def digitVal (c : Char) : Option ℕ :=
  if '0' ≤ c ∧ c ≤ '9' then some (c.toNat - '0'.toNat) else none

/-- Parse a digit string (`Number("") = 0`; non-numeric strings give `NaN` in
JavaScript, which is outside the model and mapped to 0). -/
def digitsToNat (cs : List Char) : Option ℕ :=
  cs.foldl
    (fun acc c =>
      match acc, digitVal c with
      | some a, some d => some (a * 10 + d)
      | _, _ => none)
    (some 0)

/-- `Number(s)` on the strings produced by splitting `"HH:MM"`. -/
def jsNum (s : String) : ℝ := (((digitsToNat s.toList).getD 0 : ℕ) : ℝ)

/-- Split a character list on a separator (the semantics of
`String.prototype.split` for a single-character separator). -/
def splitCh (sep : Char) : List Char → List (List Char)
  | [] => [[]]
  | c :: cs =>
    if c = sep then [] :: splitCh sep cs
    else
      match splitCh sep cs with
      | [] => [[c]]
      | g :: gs => (c :: g) :: gs

/-- JavaScript truthiness of an optional number (`undefined` and `0` are falsy). -/
def optTruthy (o : Option ℝ) : Prop := o.getD 0 ≠ 0

structure Coord where
  lat : ℝ
  lng : ℝ

structure Hotel where
  name : String
  checkIn : Option ℤ
  checkOut : Option ℤ
  latitude : Option ℝ
  longitude : Option ℝ

structure CandidatePlace where
  name : String
  category : String
  rating : ℝ
  reviewCount : ℝ
  priceLevel : ℝ
  latitude : ℝ
  longitude : ℝ
  description : String
  closedDays : List ℤ
  openingText : String
  durationHours : ℝ
  score : Option ℝ
  distanceFromHotel : Option ℝ
  matchReason : String
  suggestedDay : Option ℕ

/-- The slice of `UserPreferences` the ranking engine reads: `style.focus`,
`budget.amount` and the trip date range (day-granular). -/
structure UserPreferences where
  focus : String
  budgetAmount : ℝ
  dateStart : ℤ
  dateEnd : ℤ

/-- The optional `flightTimes` parameter; the source field `end` is a reserved
word in Lean and is called `endTime` here. -/
structure FlightTimes where
  start : String
  endTime : String

instance : Inhabited CandidatePlace :=
  ⟨{ name := "", category := "", rating := 0, reviewCount := 0, priceLevel := 0,
     latitude := 0, longitude := 0, description := "", closedDays := [],
     openingText := "", durationHours := 0, score := none,
     distanceFromHotel := none, matchReason := "", suggestedDay := none }⟩

/-! ## Arena/store model of JavaScript reference semantics

The optimizers mutate candidate records in place while they sit in several
lists at once (`unvisited`, a per-day pool, the output).  The embedding keeps
one arena of records; the lists hold indices into it. -/

structure OptState where
  arena : List CandidatePlace
  unvisited : List ℕ
  out : List ℕ

/-- Dereference an arena index. -/
def getC (arena : List CandidatePlace) (i : ℕ) : CandidatePlace :=
  arena.getD i default

/-- First index / element pair minimizing `f`, scanning left to right and
keeping the earlier element on ties — exactly the `for`-loop pattern
`if (metric < best) { best = metric; bestIdx = i; }` of the source. -/
def argminFirst (f : α → ℝ) : (l : List α) → Option (Fin l.length × α)
  | [] => none
  | x :: xs =>
    match argminFirst f xs with
    | none => some (⟨0, Nat.succ_pos _⟩, x)
    | some (j, y) =>
      if f y < f x then some (⟨j.1 + 1, Nat.succ_lt_succ j.2⟩, y)
      else some (⟨0, Nat.succ_pos _⟩, x)

/-- `unvisited.findIndex(u => u.name === nm)` followed by `splice(idx, 1)`:
drop the first index whose record has the given name (no change when the name
is absent). -/
def removeFirstName (arena : List CandidatePlace) (nm : String) : List ℕ → List ℕ
  | [] => []
  | j :: rest =>
    if (getC arena j).name = nm then rest
    else j :: removeFirstName arena nm rest

/-- Like `argminFirst`, but elements failing `P` are skipped (the
`if (!candidate.latitude || !candidate.longitude) continue;` pattern). -/
def argminFirstP (P : α → Prop) (f : α → ℝ) : (l : List α) → Option (Fin l.length × α)
  | [] => none
  | x :: xs =>
    match argminFirstP P f xs with
    | none =>
      if P x then some (⟨0, Nat.succ_pos _⟩, x) else none
    | some (j, y) =>
      if P x then
        (if f y < f x then some (⟨j.1 + 1, Nat.succ_lt_succ j.2⟩, y)
         else some (⟨0, Nat.succ_pos _⟩, x))
      else some (⟨j.1 + 1, Nat.succ_lt_succ j.2⟩, y)

/-- The calendar date of trip day `dayNum` (1-based):
`new Date(startDate); setDate(getDate() + (dayNum - 1))`. -/
def dayDate (start : ℤ) (dayNum : ℕ) : ℤ := start + (dayNum : ℤ) - 1

/-- The `for (let dayNum = 1; dayNum <= totalDays; dayNum++)` loop shared by
the optimizer iterations: runs a per-day step over the listed day numbers,
propagating the crash (`none`) of a step. -/
def runSteps (step : ℕ → OptState → Option OptState) : List ℕ → OptState → Option OptState
  | [], st => some st
  | d :: ds, st =>
    match step d st with
    | none => none
    | some st' => runSteps step ds st'

/-- Sort key: `(x.score || 0)`. -/
def scoreKey (c : CandidatePlace) : ℝ := c.score.getD 0

/-- The comparator `(a, b) => (b.score || 0) - (a.score || 0)`: `a` may come
before `b` exactly when this is `≤ 0`. -/
def scoreGE (a b : CandidatePlace) : Prop := scoreKey b ≤ scoreKey a

/-- JavaScript's `Array.prototype.sort` with the descending-score comparator.
The ECMAScript specification requires the sort to be stable, which (together
with the comparator) determines the output uniquely; insertion sort with
`scoreGE` computes exactly that stable descending order. -/
def jsSortDesc (l : List CandidatePlace) : List CandidatePlace :=
  l.insertionSort scoreGE

/-! ## The storageService iteration (storageService.ts, third chunk):
`isDateInHotelStay`, `parseTime` and the fully-featured `optimizeRoute`
with flight-time windows, geofencing, weighted greedy chaining and
placeholder backfill. -/

namespace Storage

/-- `isDateInHotelStay`: half-open `[checkIn, checkOut)` at day granularity;
empty/missing date strings yield `false`. -/
def isDateInHotelStay (d : ℤ) (checkIn checkOut : Option ℤ) : Bool :=
  match checkIn, checkOut with
  | some ci, some co => decide (ci ≤ d ∧ d < co)
  | _, _ => false

/-- `parseTime`: `"HH:MM"` to fractional hours; an empty string defaults to 9.
(Malformed time strings, which produce `NaN` in JavaScript, are outside the
model.) -/
def parseTime (s : String) : ℝ :=
  if s = "" then 9
  else
    let parts := (splitCh ':' s.toList).map (fun cs => String.mk cs)
    jsNum (parts.getD 0 "") + jsNum (parts.getD 1 "") / 60

/-- Active-lodging resolution inside `optimizeRoute`: the first lodging whose
half-open stay interval contains the date; failing that, the first whose
checkout day equals the date; failing that, the last lodging in the list
(`undefined`, i.e. `none`, on an empty list — the caller then crashes). -/
def activeHotelFor (d : ℤ) (hotels : List Hotel) : Option Hotel :=
  match hotels.find? (fun h => isDateInHotelStay d h.checkIn h.checkOut) with
  | some h => some h
  | none =>
    match hotels.find? (fun h => h.checkOut == some d) with
    | some h => some h
    | none => hotels.getLast?

/-- The transit-day placeholder entry (a pure arrival/departure day). -/
def transitPlaceholder (dayNum : ℕ) (airport : Option Coord) : CandidatePlace :=
  { name := if dayNum = 1 then "抵達、辦理入境與前往飯店" else "前往機場、辦理登機",
    category := "other", rating := 0, reviewCount := 0, priceLevel := 0,
    latitude := (airport.map Coord.lat).getD 0,
    longitude := (airport.map Coord.lng).getD 0,
    description := "Travel Time", closedDays := [], openingText := "",
    durationHours := 0, score := none, distanceFromHotel := none,
    matchReason := "時間緊迫，純移動行程", suggestedDay := some dayNum }

/-- The "free exploration" placeholder injected when a day ends with no
committed candidate. -/
def backfillPlaceholder (dayNum : ℕ) (ah : Hotel) : CandidatePlace :=
  { name := "市區自由探索 (AI 推薦)",
    category := "other", rating := 0, reviewCount := 0, priceLevel := 0,
    latitude := ah.latitude.getD 0,
    longitude := ah.longitude.getD 0,
    description := "Relaxed exploration", closedDays := [], openingText := "",
    durationHours := 2, score := none, distanceFromHotel := none,
    matchReason := "行程彈性安排", suggestedDay := some dayNum }

/-- The distance computed for a candidate in the per-day filter: 999 when
either side lacks truthy coordinates, overridden by the airport distance on
day 1 when that is below 20 km. -/
def dayDist (dayNum : ℕ) (ah : Hotel) (airport : Option Coord) (p : CandidatePlace) : ℝ :=
  let d0 : ℝ :=
    if optTruthy ah.latitude ∧ optTruthy ah.longitude ∧ p.latitude ≠ 0 ∧ p.longitude ≠ 0 then
      calculateDistance (ah.latitude.getD 0) (ah.longitude.getD 0) p.latitude p.longitude
    else 999
  match airport with
  | some ap =>
    if dayNum = 1 then
      let da := calculateDistance ap.lat ap.lng p.latitude p.longitude
      if da < 20 then da else d0
    else d0
  | none => d0

/-- The per-day `unvisited.filter(...)` pass.  It walks the unvisited indices
in order, skips candidates closed on the day's weekday (before any mutation,
as in the source), writes `distanceFromHotel` on every other examined record,
and keeps those within the effective radius. -/
def filterPhase (dayNum : ℕ) (wd : ℤ) (ah : Hotel) (airport : Option Coord) (effR : ℝ) :
    List ℕ → List CandidatePlace → List CandidatePlace × List ℕ
  | [], arena => (arena, [])
  | i :: rest, arena =>
    let p := getC arena i
    if wd ∈ p.closedDays then filterPhase dayNum wd ah airport effR rest arena
    else
      let dist := dayDist dayNum ah airport p
      let arena' := arena.set i { p with distanceFromHotel := some (round1 dist) }
      let pr := filterPhase dayNum wd ah airport effR rest arena'
      (pr.1, if dist ≤ effR then i :: pr.2 else pr.2)

/-- The weight minimized by the greedy selection: travel distance from the
current location minus `score / 20`. -/
def weightFrom (arena : List CandidatePlace) (loc : Coord) (i : ℕ) : ℝ :=
  calculateDistance loc.lat loc.lng (getC arena i).latitude (getC arena i).longitude
    - (getC arena i).score.getD 0 / 20

/-- The `matchReason` text written at commit time. -/
def commitReason (dayNum spots : ℕ) : String :=
  "Day " ++ toString dayNum ++ " (從" ++
    (if spots = 0 then (if dayNum = 1 then "機場/飯店" else "飯店") else "上一景點")
    ++ "出發)"

/-- The state mutation performed when the chosen candidate is committed:
stamp the record, push its reference onto the output, and splice the first
same-named entry out of the global unvisited pool. -/
def commitState (dayNum spots ci : ℕ) (st : OptState) : OptState :=
  let chosen' := { getC st.arena ci with
    suggestedDay := some dayNum,
    matchReason := commitReason dayNum spots }
  { arena := st.arena.set ci chosen',
    unvisited := removeFirstName (st.arena.set ci chosen')
      (getC st.arena ci).name st.unvisited,
    out := st.out ++ [ci] }

/-- The `while (currentTime < maxTime && todaysCandidates.length > 0)` greedy
loop.  Note the faithful slip of the source: `travelTime` divides the
*weighted* metric (`minDist` holds the weight, not the raw distance). -/
def greedyLoop (dayNum : ℕ) (mx : ℝ) (pool : List ℕ) (t : ℝ) (loc : Coord)
    (spots : ℕ) (st : OptState) : OptState × ℕ :=
  if t < mx then
    match argminFirst (weightFrom st.arena loc) pool with
    | none => (st, spots)
    | some (b, ci) =>
      let minDist := weightFrom st.arena loc ci
      let chosen := getC st.arena ci
      let travelTime := minDist / 30 + 0.3
      let duration := if chosen.durationHours = 0 then 1.5 else chosen.durationHours
      if t + travelTime + duration > mx + 0.5 then
        greedyLoop dayNum mx (pool.eraseIdx b.1) t loc spots st
      else
        greedyLoop dayNum mx (pool.eraseIdx b.1) (t + travelTime + duration)
          ⟨chosen.latitude, chosen.longitude⟩ (spots + 1)
          (commitState dayNum spots ci st)
  else (st, spots)
termination_by pool.length
decreasing_by
  all_goals
    have hb := b.2
    rw [List.length_eraseIdx, if_pos hb]
    omega

/-- `flightTimes ? parseTime(flightTimes.start) : 10`. -/
def arrivalOf (flight : Option FlightTimes) : ℝ :=
  match flight with
  | some f => parseTime f.start
  | none => 10

/-- `flightTimes ? parseTime(flightTimes.end) : 18`. -/
def departureOf (flight : Option FlightTimes) : ℝ :=
  match flight with
  | some f => parseTime f.endTime
  | none => 18

/-- The day's start of operations: 9:00, delayed on day 1 to
`max(arrival + 2.5, 9)`. -/
def dayStartTime (flight : Option FlightTimes) (dayNum : ℕ) : ℝ :=
  if dayNum = 1 then max (arrivalOf flight + 2.5) 9 else 9

/-- The day's end of operations: 20:00, advanced on the last day to
`min(departure - 3.5, 20)`. -/
def dayEndTime (flight : Option FlightTimes) (dayNum totalDays : ℕ) : ℝ :=
  if dayNum = totalDays then min (departureOf flight - 3.5) 20 else 20

/-- The day's starting location: the airport on day 1 when supplied with a
nonzero latitude, otherwise the active hotel's (0-defaulted) coordinates. -/
def dayStartLoc (dayNum : ℕ) (airport : Option Coord) (ah : Hotel) : Coord :=
  match airport with
  | some ap =>
    if dayNum = 1 ∧ ap.lat ≠ 0 then ap
    else ⟨ah.latitude.getD 0, ah.longitude.getD 0⟩
  | none => ⟨ah.latitude.getD 0, ah.longitude.getD 0⟩

/-- `unvisited.length < 10 ? 100 : MAX_RADIUS` (30 km). -/
def effRadius (n : ℕ) : ℝ := if n < 10 then 100 else 30

/-- One `for (let dayNum = ...)` iteration of `optimizeRoute`.  Returns `none`
exactly where the JavaScript would throw (an empty lodging list reached past
the transit-day early exit). -/
def processDay (hotels : List Hotel) (start : ℤ) (totalDays : ℕ)
    (airport : Option Coord) (flight : Option FlightTimes)
    (dayNum : ℕ) (st : OptState) : Option OptState :=
  if dayEndTime flight dayNum totalDays - dayStartTime flight dayNum < 2 then
    some { st with arena := st.arena ++ [transitPlaceholder dayNum airport],
                   out := st.out ++ [st.arena.length] }
  else
    match activeHotelFor (dayDate start dayNum) hotels with
    | none => none
    | some ah =>
      let fp := filterPhase dayNum (dayOfWeek (dayDate start dayNum)) ah airport
        (effRadius st.unvisited.length) st.unvisited st.arena
      let gl := greedyLoop dayNum (dayEndTime flight dayNum totalDays) fp.2
        (dayStartTime flight dayNum) (dayStartLoc dayNum airport ah) 0
        { st with arena := fp.1 }
      if gl.2 = 0 then
        some { gl.1 with arena := gl.1.arena ++ [backfillPlaceholder dayNum ah],
                         out := gl.1.out ++ [gl.1.arena.length] }
      else some gl.1

/-- `optimizeRoute` (storageService iteration): `none` models the JavaScript
`TypeError` on an empty lodging list; otherwise the returned list is the
`finalOrderedList` of (references to) records, read out of the final store. -/
def optimizeRoute (candidates : List CandidatePlace) (hotels : List Hotel)
    (start : ℤ) (totalDays : ℕ) (airport : Option Coord)
    (flight : Option FlightTimes) : Option (List CandidatePlace) :=
  (runSteps (processDay hotels start totalDays airport flight) (List.range' 1 totalDays)
      { arena := candidates, unvisited := List.range candidates.length, out := [] }).map
    (fun st => st.out.map (getC st.arena))

end Storage

/-! ## The current rankingEngine iteration (rankingEngine.ts, first chunk):
`rankCandidates` with the nearest-hotel geofence scoring and the
geo-filtered `optimizeRoute` with a spots-per-day cap. -/

namespace Engine

/-- `isDateInHotelStay` (rankingEngine variant): *closed* interval
`[checkIn, checkOut]` at day granularity. -/
def isDateInHotelStay (d : ℤ) (checkIn checkOut : Option ℤ) : Bool :=
  match checkIn, checkOut with
  | some ci, some co => decide (ci ≤ d ∧ d ≤ co)
  | _, _ => false

/-- The `hotels.forEach` scan for the nearest lodging with truthy coordinates:
`none` models the untouched `Infinity` / empty-name pair. -/
def nearestHotel (hotels : List Hotel) (place : CandidatePlace) : Option (ℝ × String) :=
  hotels.foldl
    (fun acc h =>
      if optTruthy h.latitude ∧ optTruthy h.longitude ∧
          place.latitude ≠ 0 ∧ place.longitude ≠ 0 then
        let d := calculateDistance (h.latitude.getD 0) (h.longitude.getD 0)
          place.latitude place.longitude
        match acc with
        | none => some (d, h.name)
        | some (m, nm) => if d < m then some (d, h.name) else some (m, nm)
      else acc)
    none

/-- The body of `candidates.map(place => ...)` in `rankCandidates`:
rating term (weight 0.3), interest term (weight 0.4), nearest-hotel proximity
term (weight 0.2, `-200` beyond 80 km, `-50` when unknown), and a `-10`
penalty for `priceLevel === 4`. -/
def scorePlace (prefs : UserPreferences) (hotels : List Hotel)
    (place : CandidatePlace) : CandidatePlace :=
  let rating := if place.rating = 0 then 4.0 else place.rating
  let s1 : ℝ := rating / 5 * 100 * 0.3
  let matchScore : ℝ :=
    if prefs.focus = "balanced" then 80
    else if prefs.focus = place.category then 100
    else if place.category = "sightseeing" then 70
    else 50
  let s2 := s1 + matchScore * 0.4
  match nearestHotel hotels place with
  | some (m, nm) =>
    let s3 := if m > 80 then s2 - 200 else s2 + max 0 ((1 - m / 20) * 100) * 0.2
    let reasons : List String := if m < 5 then ["鄰近" ++ nm] else []
    let s4 := if place.priceLevel = 4 then s3 - 10 else s3
    { place with
      distanceFromHotel := some (round2 m),
      score := some (round1 s4),
      matchReason := String.intercalate ", " reasons }
  | none =>
    let s3 := s2 - 50
    let s4 := if place.priceLevel = 4 then s3 - 10 else s3
    { place with
      score := some (round1 s4),
      matchReason := "" }

/-- `rankCandidates` (rankingEngine iteration). -/
def rankCandidates (candidates : List CandidatePlace) (prefs : UserPreferences)
    (hotels : List Hotel) : List CandidatePlace :=
  jsSortDesc (candidates.map (scorePlace prefs hotels))

/-- The per-day `unvisited.filter(...)`: closed-weekday exclusion, the
"nuclear penalty" exclusion of negative scores, and a strict 60 km geofence
around the day's hotel; accepted records get `distanceFromHotel` written. -/
def dayFilter (wd : ℤ) (ah : Hotel) :
    List ℕ → List CandidatePlace → List CandidatePlace × List ℕ
  | [], arena => (arena, [])
  | i :: rest, arena =>
    let p := getC arena i
    if wd ∈ p.closedDays then dayFilter wd ah rest arena
    else if p.score.getD 0 < 0 then dayFilter wd ah rest arena
    else if optTruthy ah.latitude ∧ optTruthy ah.longitude ∧
        p.latitude ≠ 0 ∧ p.longitude ≠ 0 then
      let dist := calculateDistance (ah.latitude.getD 0) (ah.longitude.getD 0)
        p.latitude p.longitude
      if dist > 60 then dayFilter wd ah rest arena
      else
        let arena' := arena.set i { p with distanceFromHotel := some (round1 dist) }
        let pr := dayFilter wd ah rest arena'
        (pr.1, i :: pr.2)
    else dayFilter wd ah rest arena

/-- The nearest-neighbour chaining loop with the `MAX_SPOTS_PER_DAY` cap. -/
def greedyLoop (dayNum maxSpots : ℕ) (label : String) (pool : List ℕ)
    (loc : Coord) (spots : ℕ) (st : OptState) : OptState :=
  if spots < maxSpots then
    match argminFirst (fun i =>
        calculateDistance loc.lat loc.lng (getC st.arena i).latitude
          (getC st.arena i).longitude) pool with
    | none => st
    | some (b, ci) =>
      let minMove := calculateDistance loc.lat loc.lng (getC st.arena ci).latitude
        (getC st.arena ci).longitude
      let chosen := getC st.arena ci
      let chosen' := { chosen with
        suggestedDay := some dayNum,
        matchReason := "Day " ++ toString dayNum ++ " (距" ++ label ++ "約" ++
          realToString (round1 minMove) ++ "km)" }
      let arena' := st.arena.set ci chosen'
      greedyLoop dayNum maxSpots label (pool.eraseIdx b.1)
        ⟨chosen.latitude, chosen.longitude⟩ (spots + 1)
        { arena := arena',
          unvisited := removeFirstName arena' chosen.name st.unvisited,
          out := st.out ++ [ci] }
  else st
termination_by pool.length
decreasing_by
  have hb := b.2
  rw [List.length_eraseIdx, if_pos hb]
  omega

/-- One day of the rankingEngine `optimizeRoute`; `none` models the
`TypeError` on an empty lodging list (`activeHotel.latitude` with
`activeHotel` undefined). -/
def processDay (hotels : List Hotel) (start : ℤ) (airport : Option Coord)
    (maxSpots : ℕ) (dayNum : ℕ) (st : OptState) : Option OptState :=
  let date := dayDate start dayNum
  let wd := dayOfWeek date
  let ah? :=
    match hotels.find? (fun h => isDateInHotelStay date h.checkIn h.checkOut) with
    | some h => some h
    | none => hotels.getLast?
  match ah? with
  | none => none
  | some ah =>
    let startLoc : Coord :=
      match airport with
      | some ap =>
        if dayNum = 1 ∧ ap.lat ≠ 0 then ap
        else ⟨ah.latitude.getD 0, ah.longitude.getD 0⟩
      | none => ⟨ah.latitude.getD 0, ah.longitude.getD 0⟩
    let fp := dayFilter wd ah st.unvisited st.arena
    let st1 : OptState := { st with arena := fp.1 }
    if fp.2 = [] then some st1
    else
      let currentLoc : Coord :=
        if startLoc.lat = 0 then
          ⟨(getC fp.1 (fp.2.headD 0)).latitude, (getC fp.1 (fp.2.headD 0)).longitude⟩
        else startLoc
      let label : String :=
        match airport with
        | some _ => if dayNum = 1 then "機場/飯店" else ah.name
        | none => ah.name
      some (greedyLoop dayNum maxSpots label fp.2 currentLoc 0 st1)

/-- `optimizeRoute` (rankingEngine iteration): geo-filter, nearest-neighbour
chaining and the `MAX_SPOTS_PER_DAY = max(3, ceil(n / totalDays))` cap; no
backfill of empty days. -/
def optimizeRoute (candidates : List CandidatePlace) (hotels : List Hotel)
    (start : ℤ) (totalDays : ℕ) (airport : Option Coord) :
    Option (List CandidatePlace) :=
  if candidates = [] then some candidates
  else
    let maxSpots := max 3 ((candidates.length + totalDays - 1) / totalDays)
    (runSteps (processDay hotels start airport maxSpots) (List.range' 1 totalDays)
        { arena := candidates, unvisited := List.range candidates.length,
          out := [] }).map
      (fun st => st.out.map (getC st.arena))

end Engine

/-! ## The earlier shared iteration (storageService.ts second chunk and
rankingEngine.ts second chunk — identical code): `rankCandidates` against a
single optional hotel location, and the un-geofenced `optimizeRoute` whose
leftover pass dumps every unassigned candidate onto the last day. -/

namespace EngineV2

/-- The body of `candidates.map(place => ...)` of this `rankCandidates`:
rating (0.3), interest (0.4), single-hotel distance with 10 km linear decay
(0.2, neutral 50 when unknown) and budget fit (0.1).  On a zero-length trip
JavaScript divides by zero and gets `±Infinity`, so the `< 3000` low-budget
test reduces to `amount < 0`; the `if days = 0` guard mirrors that. -/
def scorePlace (prefs : UserPreferences) (hotelLocation : Option Coord)
    (place : CandidatePlace) : CandidatePlace :=
  let rating := if place.rating = 0 then 4.0 else place.rating
  let s1 : ℝ := rating / 5 * 100 * 0.3
  let reasons1 : List String :=
    if 4.5 ≤ rating then ["高評價(" ++ realToString rating ++ ")"] else []
  let matchScore : ℝ :=
    if prefs.focus = "balanced" then 80
    else if prefs.focus = place.category then 100
    else if (prefs.focus = "sightseeing" ∧ place.category = "culture") ∨
        (prefs.focus = "culture" ∧ place.category = "sightseeing") then 80
    else if prefs.focus = "food" ∧ place.category ≠ "food" then 30
    else 50
  let reasons2 := reasons1 ++
    (if prefs.focus ≠ "balanced" ∧ prefs.focus = place.category then
      ["符合興趣(" ++ prefs.focus ++ ")"] else [])
  let s2 := s1 + matchScore * 0.4
  let distInfo : Option ℝ :=
    match hotelLocation with
    | some hl =>
      if place.latitude ≠ 0 ∧ place.longitude ≠ 0 then
        some (calculateDistance hl.lat hl.lng place.latitude place.longitude)
      else none
    | none => none
  let distScore : ℝ :=
    match distInfo with
    | some d => max 0 ((1 - d / 10) * 100)
    | none => 50
  let reasons3 := reasons2 ++
    (match distInfo with
     | some d => if d < 2 then ["離酒店近(" ++ realToString (round2 d) ++ "km)"] else []
     | none => [])
  let s3 := s2 + distScore * 0.2
  let days : ℤ := prefs.dateEnd - prefs.dateStart
  let budgetLow : Prop :=
    if days = 0 then prefs.budgetAmount < 0
    else prefs.budgetAmount / (days : ℝ) < 3000
  let priceScore : ℝ :=
    if budgetLow then (if place.priceLevel ≤ 2 then 100 else 20) else 80
  let reasons4 := reasons3 ++
    (if budgetLow ∧ place.priceLevel ≤ 2 then ["符合預算"] else [])
  let total := s3 + priceScore * 0.1
  { place with
    distanceFromHotel :=
      match distInfo with
      | some d => some (round2 d)
      | none => place.distanceFromHotel,
    score := some (round1 total),
    matchReason := "綜合評分: " ++ realToString (round1 total) ++ " | " ++
      String.intercalate ", " reasons4 }

/-- `rankCandidates` (single-hotel iteration). -/
def rankCandidates (candidates : List CandidatePlace) (prefs : UserPreferences)
    (hotelLocation : Option Coord) : List CandidatePlace :=
  jsSortDesc (candidates.map (scorePlace prefs hotelLocation))

/-- Nearest-neighbour chaining; candidates without truthy coordinates are
skipped by the inner `continue`, and a day pool of only such candidates ends
the day (`bestIdx === -1`). -/
def greedyLoop (dayNum maxSpots : ℕ) (pool : List ℕ) (loc : Coord)
    (spots : ℕ) (st : OptState) : OptState :=
  if spots < maxSpots then
    match argminFirstP
        (fun i => (getC st.arena i).latitude ≠ 0 ∧ (getC st.arena i).longitude ≠ 0)
        (fun i => calculateDistance loc.lat loc.lng (getC st.arena i).latitude
          (getC st.arena i).longitude) pool with
    | none => st
    | some (b, ci) =>
      let chosen := getC st.arena ci
      let chosen' := { chosen with
        suggestedDay := some dayNum,
        matchReason := chosen.matchReason ++
          (if chosen.closedDays ≠ [] then
            " | 自動安排於Day " ++ toString dayNum ++ " (避開公休)" else "") }
      let arena' := st.arena.set ci chosen'
      greedyLoop dayNum maxSpots (pool.eraseIdx b.1)
        ⟨chosen.latitude, chosen.longitude⟩ (spots + 1)
        { arena := arena',
          unvisited := removeFirstName arena' chosen.name st.unvisited,
          out := st.out ++ [ci] }
  else st
termination_by pool.length
decreasing_by
  have hb := b.2
  rw [List.length_eraseIdx, if_pos hb]
  omega

/-- One day: keep candidates open on the weekday (no geofence in this
iteration), then chain greedily from the hotel.  Never crashes. -/
def processDay (hotelLocation : Coord) (start : ℤ) (maxSpots : ℕ)
    (dayNum : ℕ) (st : OptState) : Option OptState :=
  let wd := dayOfWeek (dayDate start dayNum)
  let pool := st.unvisited.filter (fun i => decide (wd ∉ (getC st.arena i).closedDays))
  if pool = [] then some st
  else some (greedyLoop dayNum maxSpots pool hotelLocation 0 st)

/-- The final leftover pass (lines ~371-379): every still-unvisited candidate
is stamped `suggestedDay = totalDays`, tagged "候補行程" and appended. -/
def leftoverPhase (totalDays : ℕ) : List ℕ → OptState → OptState
  | [], st => st
  | i :: rest, st =>
    let p := getC st.arena i
    leftoverPhase totalDays rest
      { arena := st.arena.set i
          { p with suggestedDay := some totalDays,
                   matchReason := p.matchReason ++ " | 候補行程" },
        unvisited := st.unvisited,
        out := st.out ++ [i] }

/-- `optimizeRoute` (un-geofenced iteration).  A missing hotel location or an
empty candidate list returns the input unchanged; the per-day steps are total,
so the `getD` fallback of the runner is never taken. -/
def optimizeRoute (candidates : List CandidatePlace) (hotelLocation : Option Coord)
    (start : ℤ) (totalDays : ℕ) : List CandidatePlace :=
  match hotelLocation with
  | none => candidates
  | some loc =>
    if candidates = [] then candidates
    else
      let maxSpots := (candidates.length + totalDays - 1) / totalDays + 1
      let st0 : OptState :=
        { arena := candidates, unvisited := List.range candidates.length, out := [] }
      let stFin := (runSteps (processDay loc start maxSpots)
        (List.range' 1 totalDays) st0).getD st0
      let stL := leftoverPhase totalDays stFin.unvisited stFin
      stL.out.map (getC stL.arena)

end EngineV2

/-! ## Concrete instances used by the counterexamples and witnesses -/

/-- A lodging with resolvable coordinates covering trip days 0..2. -/
def hMain : Hotel :=
  { name := "本館", checkIn := some 0, checkOut := some 3,
    latitude := some 1, longitude := some 2 }

/-- A well-scored candidate at the hotel's own coordinates whose 2.3 h visit
only fits day 1 because the score-weighted metric is (wrongly) used as the
travel distance. -/
def cTime : CandidatePlace :=
  { name := "展望台", category := "sightseeing", rating := 4, reviewCount := 10,
    priceLevel := 1, latitude := 1, longitude := 2, description := "",
    closedDays := [], openingText := "", durationHours := 2.3, score := some 60,
    distanceFromHotel := none, matchReason := "", suggestedDay := none }

/-- First of two distinct records sharing one name (lower score, long visit). -/
def cdupA : CandidatePlace :=
  { name := "雙子塔", category := "sightseeing", rating := 4, reviewCount := 1,
    priceLevel := 1, latitude := 1, longitude := 2, description := "first",
    closedDays := [], openingText := "", durationHours := 10, score := some 0,
    distanceFromHotel := none, matchReason := "", suggestedDay := none }

/-- Second record with the same name (higher score, 4 h visit). -/
def cdupB : CandidatePlace :=
  { name := "雙子塔", category := "sightseeing", rating := 5, reviewCount := 2,
    priceLevel := 1, latitude := 1, longitude := 2, description := "second",
    closedDays := [], openingText := "", durationHours := 4, score := some 20,
    distanceFromHotel := none, matchReason := "", suggestedDay := none }

/-- A lodging at the north pole (lat 90), so that `cFar` below sits at the
exactly-computable antipodal distance `6371 * π` km from it. -/
def hPole : Hotel :=
  { name := "極點飯店", checkIn := some 0, checkOut := some 3,
    latitude := some 90, longitude := some 45 }

/-- A candidate antipodal to every lodging: farther than any outlier
threshold from all of them. -/
def cFar : CandidatePlace :=
  { name := "遠方景點", category := "sightseeing", rating := 5, reviewCount := 3,
    priceLevel := 1, latitude := -90, longitude := 45, description := "",
    closedDays := [], openingText := "", durationHours := 0, score := none,
    distanceFromHotel := none, matchReason := "", suggestedDay := none }

/-- Balanced-focus preferences. -/
def prefsBal : UserPreferences :=
  { focus := "balanced", budgetAmount := 10000, dateStart := 0, dateEnd := 3 }

/-- A candidate closed on weekday 4 (epoch day 0 was a Thursday = 4). -/
def cRest : CandidatePlace :=
  { name := "休館日博物館", category := "culture", rating := 4, reviewCount := 7,
    priceLevel := 2, latitude := 5, longitude := 6, description := "",
    closedDays := [4], openingText := "", durationHours := 1, score := some 50,
    distanceFromHotel := none, matchReason := "", suggestedDay := none }

/-- Lodgings for the active-lodging witness: day 12 is `hA`'s checkout day
and inside `hB`'s half-open stay. -/
def hA : Hotel :=
  { name := "旅館A", checkIn := some 10, checkOut := some 12,
    latitude := some 3, longitude := some 4 }

def hB : Hotel :=
  { name := "旅館B", checkIn := some 12, checkOut := some 15,
    latitude := some 5, longitude := some 6 }

/-- A late flight arrival (22:00) and an 18:00 departure on the last day. -/
def lateFlight : FlightTimes := { start := "22:00", endTime := "18:00" }

/-- `cTime` after the day-1 filter pass (distance written). -/
def cT1 : CandidatePlace := { cTime with distanceFromHotel := some 0 }

/-- `cTime` as committed to day 1. -/
def cT2 : CandidatePlace :=
  { cT1 with
      suggestedDay := some 1
      matchReason := "Day 1 (從機場/飯店出發)" }

/-- `cdupA` after a filter pass. -/
def cdupA1 : CandidatePlace := { cdupA with distanceFromHotel := some 0 }

/-- `cdupB` after a filter pass (not yet committed). -/
def cdupBf : CandidatePlace := { cdupB with distanceFromHotel := some 0 }

/-- `cdupB` as committed to day 1. -/
def cdupB1 : CandidatePlace :=
  { cdupB with
      distanceFromHotel := some 0
      suggestedDay := some 1
      matchReason := "Day 1 (從機場/飯店出發)" }

/-- `cdupB` as re-committed to day 2 (its single record is mutated in place). -/
def cdupB2 : CandidatePlace :=
  { cdupB with
      distanceFromHotel := some 0
      suggestedDay := some 2
      matchReason := "Day 2 (從飯店出發)" }

/-- The far candidate as scored by the ranking engine: nearest-lodging
distance `6371 π` km, the `-200` outlier penalty applied. -/
def cFarScored : CandidatePlace :=
  { cFar with
      score := some (-138)
      distanceFromHotel := some (round2 (6371 * Real.pi))
      matchReason := "" }

/-! ## Evaluation lemmas for the storageService optimizer -/

/-- A candidate closed on weekday 5 only — open on trip day 1 (weekday 4). -/
def cOpen : CandidatePlace :=
  { cTime with name := "週五休館展望台", closedDays := [5] }

/-- `cOpen` after the day-1 filter pass. -/
def cOpen1 : CandidatePlace := { cOpen with distanceFromHotel := some 0 }

/-- `cOpen` as committed to day 1. -/
def cOpen2 : CandidatePlace :=
  { cOpen1 with
      suggestedDay := some 1
      matchReason := "Day 1 (從機場/飯店出發)" }

/-- `cRest` as stamped by the leftover pass of the earlier shared iteration:
closed on trip day 1's weekday, yet assigned to day 1. -/
def cRestL : CandidatePlace :=
  { cRest with
      suggestedDay := some 1
      matchReason := " | 候補行程" }

/-- A candidate with missing (falsy, `0`) coordinates. -/
def cNoGeo : CandidatePlace :=
  { cTime with name := "無座標景點", latitude := 0, longitude := 0 }

/-- A lodging with no resolvable coordinates. -/
def hNoGeo : Hotel :=
  { name := "無址旅店", checkIn := none, checkOut := none,
    latitude := none, longitude := none }

/-- Injectivity of record names over the unassigned pool. -/
def nameInj (st : OptState) : Prop :=
  ∀ i ∈ st.unvisited, ∀ j ∈ st.unvisited,
    (getC st.arena i).name = (getC st.arena j).name → i = j

namespace Storage

/-- What one run of the greedy selection loop does to the state: it appends a
block `com` of committed pool indices to the output, stamps exactly those
records with the current day, leaves every other record untouched, and only
removes entries from the unvisited pool.  When the unvisited names are
injective (`nameInj`) and the pool is drawn from the unvisited set, the
removals are exactly the committed indices. -/
structure GreedyRes (dayNum : ℕ) (pool : List ℕ) (st : OptState)
    (r : OptState × ℕ) (spots : ℕ) (com : List ℕ) : Prop where
  hout : r.1.out = st.out ++ com
  hspots : r.2 = spots + com.length
  hsub : ∀ j ∈ com, j ∈ pool
  hnd : com.Nodup
  hlen : r.1.arena.length = st.arena.length
  hframe : ∀ j, j ∉ com → getC r.1.arena j = getC st.arena j
  hcommit : ∀ j ∈ com,
    (getC r.1.arena j).suggestedDay = some dayNum ∧
    (getC r.1.arena j).name = (getC st.arena j).name ∧
    (getC r.1.arena j).closedDays = (getC st.arena j).closedDays ∧
    (getC r.1.arena j).score = (getC st.arena j).score
  huv : List.Sublist r.1.unvisited st.unvisited
  hexact : (nameInj st ∧ (∀ i ∈ pool, i ∈ st.unvisited) ∧ st.unvisited.Nodup) →
    ∀ i, i ∈ r.1.unvisited ↔ i ∈ st.unvisited ∧ i ∉ com

end Storage

instance : IsTotal CandidatePlace scoreGE :=
  ⟨fun a b => le_total (scoreKey b) (scoreKey a)⟩

instance : IsTrans CandidatePlace scoreGE :=
  ⟨fun _ _ _ hab hbc => le_trans hbc hab⟩

/-! ## Facts about the embedded model -/

theorem arctan_nonneg_of_nonneg {t : ℝ} (ht : 0 ≤ t) : 0 ≤ Real.arctan t := by
  have := Real.arctan_strictMono.monotone ht
  rwa [Real.arctan_zero] at this

theorem atan2_nonneg_of_nonneg {y x : ℝ} (hy : 0 ≤ y) (hx : 0 ≤ x) :
    0 ≤ atan2 y x := by
  unfold atan2
  rcases lt_or_eq_of_le hx with hx' | hx'
  · rw [if_pos hx']
    exact arctan_nonneg_of_nonneg (div_nonneg hy hx'.le)
  · rw [if_neg (by rw [← hx']; exact lt_irrefl 0), if_neg (by rw [← hx']; exact lt_irrefl 0)]
    rcases lt_or_eq_of_le hy with hy' | hy'
    · rw [if_pos hy']
      positivity
    · rw [if_neg (by rw [← hy']; exact lt_irrefl 0), if_neg (by rw [← hy']; exact lt_irrefl 0)]

theorem atan2_zero_one : atan2 0 1 = 0 := by
  unfold atan2
  rw [if_pos one_pos]
  simp [Real.arctan_zero]

theorem atan2_one_zero : atan2 1 0 = Real.pi / 2 := by
  unfold atan2
  rw [if_neg (lt_irrefl 0), if_neg (lt_irrefl 0), if_pos one_pos]

theorem calculateDistance_nonneg (lat1 lon1 lat2 lon2 : ℝ) :
    0 ≤ calculateDistance lat1 lon1 lat2 lon2 := by
  have h : ∀ u v : ℝ, 0 ≤ (6371 : ℝ) * (2 * atan2 (Real.sqrt u) (Real.sqrt v)) := by
    intro u v
    have := atan2_nonneg_of_nonneg (Real.sqrt_nonneg u) (Real.sqrt_nonneg v)
    positivity
  exact h _ _

theorem calculateDistance_symm (lat1 lon1 lat2 lon2 : ℝ) :
    calculateDistance lat1 lon1 lat2 lon2 = calculateDistance lat2 lon2 lat1 lon1 := by
  unfold calculateDistance
  have h1 : (lat1 - lat2) * (Real.pi / 180) = -((lat2 - lat1) * (Real.pi / 180)) := by ring
  have h2 : (lon1 - lon2) * (Real.pi / 180) = -((lon2 - lon1) * (Real.pi / 180)) := by ring
  simp only [h1, h2, neg_div, Real.sin_neg]
  ring_nf

theorem calculateDistance_self (lat lon : ℝ) :
    calculateDistance lat lon lat lon = 0 := by
  unfold calculateDistance
  simp [atan2_zero_one]

/-- Pole-to-pole at a common longitude: the haversine argument is exactly 1,
giving the antipodal distance `6371 * π` (≈ 20015 km). -/
theorem calculateDistance_pole :
    calculateDistance 90 45 (-90) 45 = 6371 * Real.pi := by
  simp only [calculateDistance]
  have h1 : ((-90 : ℝ) - 90) * (Real.pi / 180) = -Real.pi := by ring
  have h2 : ((45 : ℝ) - 45) * (Real.pi / 180) = 0 := by ring
  have h3 : (90 : ℝ) * (Real.pi / 180) = Real.pi / 2 := by ring
  rw [h1, h2, h3]
  have h4 : -Real.pi / 2 = -(Real.pi / 2) := by ring
  rw [h4, Real.sin_neg, Real.sin_pi_div_two, Real.cos_pi_div_two]
  norm_num [atan2_one_zero]
  ring

theorem pole_distance_gt_80 : (80 : ℝ) < 6371 * Real.pi := by
  nlinarith [Real.pi_gt_three]

namespace Storage

theorem greedyLoop_not_time {t mx : ℝ} (h : ¬ t < mx) (dayNum : ℕ) (pool : List ℕ)
    (loc : Coord) (spots : ℕ) (st : OptState) :
    greedyLoop dayNum mx pool t loc spots st = (st, spots) := by
  rw [greedyLoop]
  simp only [if_neg h]

theorem greedyLoop_nil (dayNum : ℕ) (mx t : ℝ) (loc : Coord) (spots : ℕ) (st : OptState) :
    greedyLoop dayNum mx [] t loc spots st = (st, spots) := by
  rw [greedyLoop]
  split <;> rfl

theorem greedyLoop_skip {t m : ℝ} {p : List ℕ} {l : Coord} {s : OptState}
    {b : Fin p.length} {c : ℕ}
    (ht : t < m)
    (hm : argminFirst (weightFrom s.arena l) p = some (b, c))
    (hover : t + (weightFrom s.arena l c / 30 + 0.3) +
      (if (getC s.arena c).durationHours = 0 then 1.5
       else (getC s.arena c).durationHours) > m + 0.5)
    (dayNum : ℕ) (spots : ℕ) :
    greedyLoop dayNum m p t l spots s =
      greedyLoop dayNum m (p.eraseIdx b.1) t l spots s := by
  conv_lhs => rw [greedyLoop]
  simp only [if_pos ht, hm, if_pos hover]

theorem greedyLoop_commit {t m : ℝ} {p : List ℕ} {l : Coord} {s : OptState}
    {b : Fin p.length} {c : ℕ}
    (ht : t < m)
    (hm : argminFirst (weightFrom s.arena l) p = some (b, c))
    (hfit : ¬ (t + (weightFrom s.arena l c / 30 + 0.3) +
      (if (getC s.arena c).durationHours = 0 then 1.5
       else (getC s.arena c).durationHours) > m + 0.5))
    (dayNum : ℕ) (spots : ℕ) :
    greedyLoop dayNum m p t l spots s =
      greedyLoop dayNum m (p.eraseIdx b.1)
        (t + (weightFrom s.arena l c / 30 + 0.3) +
          (if (getC s.arena c).durationHours = 0 then 1.5
           else (getC s.arena c).durationHours))
        ⟨(getC s.arena c).latitude, (getC s.arena c).longitude⟩ (spots + 1)
        (commitState dayNum spots c s) := by
  conv_lhs => rw [greedyLoop]
  simp only [if_pos ht, hm, if_neg hfit]

theorem processDay_transit {flight : Option FlightTimes} {dayNum totalDays : ℕ}
    (h : dayEndTime flight dayNum totalDays - dayStartTime flight dayNum < 2)
    (hotels : List Hotel) (start : ℤ) (airport : Option Coord) (st : OptState) :
    processDay hotels start totalDays airport flight dayNum st =
      some { st with arena := st.arena ++ [transitPlaceholder dayNum airport],
                     out := st.out ++ [st.arena.length] } := by
  unfold processDay
  rw [if_pos h]

theorem processDay_go {flight : Option FlightTimes} {dayNum totalDays : ℕ}
    {hotels : List Hotel} {start : ℤ} {ah : Hotel}
    (h1 : ¬ (dayEndTime flight dayNum totalDays - dayStartTime flight dayNum < 2))
    (h2 : activeHotelFor (dayDate start dayNum) hotels = some ah)
    (airport : Option Coord) (st : OptState) :
    processDay hotels start totalDays airport flight dayNum st =
      (let fp := filterPhase dayNum (dayOfWeek (dayDate start dayNum)) ah airport
        (effRadius st.unvisited.length) st.unvisited st.arena
       let gl := greedyLoop dayNum (dayEndTime flight dayNum totalDays) fp.2
        (dayStartTime flight dayNum) (dayStartLoc dayNum airport ah) 0
        { st with arena := fp.1 }
       if gl.2 = 0 then
        some { gl.1 with arena := gl.1.arena ++ [backfillPlaceholder dayNum ah],
                         out := gl.1.out ++ [gl.1.arena.length] }
       else some gl.1) := by
  unfold processDay
  rw [if_neg h1, h2]

theorem dayStartTime_none_one : dayStartTime none 1 = 12.5 := by
  norm_num [dayStartTime, arrivalOf, max_def]

theorem dayStartTime_none_two : dayStartTime none 2 = 9 := by
  norm_num [dayStartTime]

theorem dayEndTime_none_last {n : ℕ} : dayEndTime none n n = 14.5 := by
  norm_num [dayEndTime, departureOf, min_def]

theorem dayEndTime_none_mid : dayEndTime none 1 2 = 20 := by
  norm_num [dayEndTime]

theorem activeHotelFor_hMain {d : ℤ} (h0 : 0 ≤ d) (h3 : d < 3) :
    activeHotelFor d [hMain] = some hMain := by
  have : isDateInHotelStay d hMain.checkIn hMain.checkOut = true := by
    simp [isDateInHotelStay, hMain]
    omega
  simp [activeHotelFor, List.find?, this]

end Storage

/-! ## Concrete runs of the storageService optimizer -/

namespace Storage

theorem run_cTime :
    optimizeRoute [cTime] [hMain] 0 1 none none = some [cT2] := by
  have hnt : ¬ (dayEndTime none 1 1 - dayStartTime none 1 < 2) := by
    rw [dayStartTime_none_one, dayEndTime_none_last]; norm_num
  have hah : activeHotelFor (dayDate 0 1) [hMain] = some hMain :=
    activeHotelFor_hMain (by norm_num [dayDate]) (by norm_num [dayDate])
  have hfp : filterPhase 1 (dayOfWeek (dayDate 0 1)) hMain none (effRadius 1) [0] [cTime] =
      ([cT1], [0]) := by
    norm_num [filterPhase, dayDist, getC, cTime, hMain, cT1, optTruthy, round1,
      calculateDistance_self, effRadius, dayOfWeek, dayDate]
  have harg : argminFirst (weightFrom [cT1] ⟨1, 2⟩) [0] =
      some (⟨0, by norm_num⟩, 0) := by
    simp [argminFirst]
  have hw : weightFrom [cT1] ⟨1, 2⟩ 0 = -3 := by
    simp [weightFrom, getC, cT1, cTime, calculateDistance_self]
    norm_num
  have hloc : dayStartLoc 1 none hMain = (⟨1, 2⟩ : Coord) := by
    simp [dayStartLoc, hMain]
  have hcommit2 : greedyLoop 1 14.5 [0] 12.5 ⟨1, 2⟩ 0
      { arena := [cT1], unvisited := [0], out := [] } =
      ({ arena := [cT2], unvisited := [], out := [0] }, 1) := by
    rw [greedyLoop_commit (s := { arena := [cT1], unvisited := [0], out := [] })
      (b := ⟨0, by norm_num⟩) (c := 0)
      (t := 12.5) (m := 14.5) (l := ⟨1, 2⟩)
      (by norm_num) harg
      (by rw [hw]; norm_num [getC, cT1, cTime])]
    norm_num [List.eraseIdx, greedyLoop_nil, getC, cT1, cT2, cTime,
      removeFirstName, commitState, commitReason, List.set]
    rfl
  have hpd : processDay [hMain] 0 1 none none 1
      { arena := [cTime], unvisited := [0], out := [] } =
      some { arena := [cT2], unvisited := [], out := [0] } := by
    rw [processDay_go hnt hah]
    simp only [List.length_singleton, dayStartTime_none_one, dayEndTime_none_last,
      hloc, hfp]
    rw [hcommit2]
    norm_num
  show (runSteps (processDay [hMain] 0 1 none none) (List.range' 1 1)
      { arena := [cTime], unvisited := List.range 1, out := [] }).map
      (fun st => st.out.map (getC st.arena)) = some [cT2]
  rw [show List.range' 1 1 = [1] from rfl, show List.range 1 = [0] from rfl]
  simp [runSteps, hpd, getC]

end Storage

namespace Storage

theorem run_dup_day1 :
    processDay [hMain] 0 2 none none 1
      { arena := [cdupA, cdupB], unvisited := [0, 1], out := [] } =
      some { arena := [cdupA1, cdupB1], unvisited := [1], out := [1] } := by
  have hnt : ¬ (dayEndTime none 1 2 - dayStartTime none 1 < 2) := by
    rw [dayStartTime_none_one, dayEndTime_none_mid]; norm_num
  have hah : activeHotelFor (dayDate 0 1) [hMain] = some hMain :=
    activeHotelFor_hMain (by norm_num [dayDate]) (by norm_num [dayDate])
  have hloc : dayStartLoc 1 none hMain = (⟨1, 2⟩ : Coord) := by
    simp [dayStartLoc, hMain]
  have hfp : filterPhase 1 (dayOfWeek (dayDate 0 1)) hMain none (effRadius 2)
      [0, 1] [cdupA, cdupB] = ([cdupA1, cdupBf], [0, 1]) := by
    norm_num [filterPhase, dayDist, getC, cdupA, cdupB, cdupA1, cdupBf, hMain,
      optTruthy, round1, calculateDistance_self, effRadius, dayOfWeek, dayDate,
      List.set]
  have hwA : weightFrom [cdupA1, cdupBf] ⟨1, 2⟩ 0 = 0 := by
    simp [weightFrom, getC, cdupA1, cdupA, calculateDistance_self]
  have hwB : weightFrom [cdupA1, cdupBf] ⟨1, 2⟩ 1 = -1 := by
    simp [weightFrom, getC, cdupBf, cdupB, calculateDistance_self]
  have harg : argminFirst (weightFrom [cdupA1, cdupBf] ⟨1, 2⟩) [0, 1] =
      some (⟨1, by norm_num⟩, 1) := by
    simp [argminFirst, hwA, hwB]
  have hwA2 : weightFrom [cdupA1, cdupB1] ⟨1, 2⟩ 0 = 0 := by
    simp [weightFrom, getC, cdupA1, cdupA, calculateDistance_self]
  have harg2 : argminFirst (weightFrom [cdupA1, cdupB1] ⟨1, 2⟩) [0] =
      some (⟨0, by norm_num⟩, 0) := by
    simp [argminFirst]
  have htail : ∀ t : ℝ, 10.2 < t →
      greedyLoop 1 20 [0] t ⟨1, 2⟩ 1
        { arena := [cdupA1, cdupB1], unvisited := [1], out := [1] } =
        ({ arena := [cdupA1, cdupB1], unvisited := [1], out := [1] }, 1) := by
    intro t ht
    by_cases h20 : t < 20
    · rw [greedyLoop_skip (p := [0])
        (s := { arena := [cdupA1, cdupB1], unvisited := [1], out := [1] })
        (b := ⟨0, by norm_num⟩) (c := 0) (t := t) (m := 20) (l := ⟨1, 2⟩)
        h20 harg2
        (by rw [hwA2]; norm_num [getC, cdupA1, cdupA]; linarith)]
      rw [show ([0] : List ℕ).eraseIdx 0 = [] from rfl, greedyLoop_nil]
    · rw [greedyLoop_not_time h20]
  have hcommit : greedyLoop 1 20 [0, 1] 12.5 ⟨1, 2⟩ 0
      { arena := [cdupA1, cdupBf], unvisited := [0, 1], out := [] } =
      ({ arena := [cdupA1, cdupB1], unvisited := [1], out := [1] }, 1) := by
    rw [greedyLoop_commit
      (s := { arena := [cdupA1, cdupBf], unvisited := [0, 1], out := [] })
      (b := ⟨1, by norm_num⟩) (c := 1)
      (t := 12.5) (m := 20) (l := ⟨1, 2⟩)
      (by norm_num) harg
      (by rw [hwB]; norm_num [getC, cdupBf, cdupB])]
    rw [hwB]
    have h2 : ([0, 1] : List ℕ).eraseIdx 1 = [0] := rfl
    rw [h2]
    have hcs : commitState 1 0 1
        { arena := [cdupA1, cdupBf], unvisited := [0, 1], out := [] } =
        { arena := [cdupA1, cdupB1], unvisited := [1], out := [1] } := by
      norm_num [commitState, commitReason, getC, List.set, removeFirstName,
        cdupBf, cdupB, cdupB1, cdupA1, cdupA]
      rfl
    rw [hcs]
    simp only [getC, List.getD_cons_succ, List.getD_cons_zero, cdupBf, cdupB,
      List.nil_append]
    norm_num
    exact htail _ (by norm_num)
  rw [processDay_go hnt hah]
  simp only [List.length_cons, List.length_singleton, List.length_nil,
    dayStartTime_none_one, dayEndTime_none_mid, hloc, hfp]
  rw [hcommit]
  norm_num

theorem run_dup_day2 :
    processDay [hMain] 0 2 none none 2
      { arena := [cdupA1, cdupB1], unvisited := [1], out := [1] } =
      some { arena := [cdupA1, cdupB2], unvisited := [], out := [1, 1] } := by
  have hnt : ¬ (dayEndTime none 2 2 - dayStartTime none 2 < 2) := by
    rw [dayStartTime_none_two, dayEndTime_none_last]; norm_num
  have hah : activeHotelFor (dayDate 0 2) [hMain] = some hMain :=
    activeHotelFor_hMain (by norm_num [dayDate]) (by norm_num [dayDate])
  have hloc : dayStartLoc 2 none hMain = (⟨1, 2⟩ : Coord) := by
    simp [dayStartLoc, hMain]
  have hfp : filterPhase 2 (dayOfWeek (dayDate 0 2)) hMain none (effRadius 1)
      [1] [cdupA1, cdupB1] = ([cdupA1, cdupB1], [1]) := by
    norm_num [filterPhase, dayDist, getC, cdupA, cdupB, cdupA1, cdupB1, hMain,
      optTruthy, round1, calculateDistance_self, effRadius, dayOfWeek, dayDate,
      List.set]
  have hwB : weightFrom [cdupA1, cdupB1] ⟨1, 2⟩ 1 = -1 := by
    simp [weightFrom, getC, cdupB1, cdupB, calculateDistance_self]
  have harg : argminFirst (weightFrom [cdupA1, cdupB1] ⟨1, 2⟩) [1] =
      some (⟨0, by norm_num⟩, 1) := by
    simp [argminFirst]
  have hcommit : greedyLoop 2 14.5 [1] 9 ⟨1, 2⟩ 0
      { arena := [cdupA1, cdupB1], unvisited := [1], out := [1] } =
      ({ arena := [cdupA1, cdupB2], unvisited := [], out := [1, 1] }, 1) := by
    rw [greedyLoop_commit
      (s := { arena := [cdupA1, cdupB1], unvisited := [1], out := [1] })
      (b := ⟨0, by norm_num⟩) (c := 1)
      (t := 9) (m := 14.5) (l := ⟨1, 2⟩)
      (by norm_num) harg
      (by rw [hwB]; norm_num [getC, cdupB1, cdupB])]
    rw [show ([1] : List ℕ).eraseIdx 0 = [] from rfl, greedyLoop_nil]
    have hcs : commitState 2 0 1
        { arena := [cdupA1, cdupB1], unvisited := [1], out := [1] } =
        { arena := [cdupA1, cdupB2], unvisited := [], out := [1, 1] } := by
      norm_num [commitState, commitReason, getC, List.set, removeFirstName,
        cdupB1, cdupB, cdupB2, cdupA1, cdupA]
      rfl
    rw [hcs]
  rw [processDay_go hnt hah]
  simp only [List.length_cons, List.length_singleton, List.length_nil,
    dayStartTime_none_two, dayEndTime_none_last, hloc, hfp]
  rw [hcommit]
  norm_num

theorem run_dup :
    optimizeRoute [cdupA, cdupB] [hMain] 0 2 none none =
      some [cdupB2, cdupB2] := by
  show (runSteps (processDay [hMain] 0 2 none none) (List.range' 1 2)
      { arena := [cdupA, cdupB], unvisited := List.range 2, out := [] }).map
      (fun st => st.out.map (getC st.arena)) = some [cdupB2, cdupB2]
  rw [show List.range' 1 2 = [1, 2] from rfl, show List.range 2 = [0, 1] from rfl]
  simp [runSteps, run_dup_day1, run_dup_day2, getC]

theorem parseTime_2200 : parseTime "22:00" = 22 := by
  rw [parseTime, if_neg (by decide)]
  norm_num [jsNum,
    show splitCh ':' ['2', '2', ':', '0', '0'] = [['2', '2'], ['0', '0']] by decide,
    show digitsToNat ['2', '2'] = some 22 by decide,
    show digitsToNat ['0', '0'] = some 0 by decide]

theorem parseTime_1800 : parseTime "18:00" = 18 := by
  rw [parseTime, if_neg (by decide)]
  norm_num [jsNum,
    show splitCh ':' ['1', '8', ':', '0', '0'] = [['1', '8'], ['0', '0']] by decide,
    show digitsToNat ['1', '8'] = some 18 by decide,
    show digitsToNat ['0', '0'] = some 0 by decide]

theorem run_transit_day1 (st : OptState) :
    processDay [hMain] 0 2 none (some lateFlight) 1 st =
      some { st with arena := st.arena ++ [transitPlaceholder 1 none],
                     out := st.out ++ [st.arena.length] } := by
  refine processDay_transit ?_ _ _ _ _
  rw [dayEndTime, dayStartTime]
  norm_num [arrivalOf, lateFlight, parseTime_2200, max_def]

theorem run_transit :
    optimizeRoute [] [hMain] 0 2 none (some lateFlight) =
      some [transitPlaceholder 1 none, backfillPlaceholder 2 hMain] := by
  have h1 := run_transit_day1 { arena := [], unvisited := [], out := [] }
  have hnt : ¬ (dayEndTime (some lateFlight) 2 2 - dayStartTime (some lateFlight) 2 < 2) := by
    rw [dayEndTime, dayStartTime]
    norm_num [departureOf, lateFlight, parseTime_1800, min_def]
  have hah : activeHotelFor (dayDate 0 2) [hMain] = some hMain :=
    activeHotelFor_hMain (by norm_num [dayDate]) (by norm_num [dayDate])
  have h2 : processDay [hMain] 0 2 none (some lateFlight) 2
      { arena := [transitPlaceholder 1 none], unvisited := [], out := [0] } =
      some { arena := [transitPlaceholder 1 none, backfillPlaceholder 2 hMain],
             unvisited := [], out := [0, 1] } := by
    rw [processDay_go hnt hah]
    simp only [filterPhase]
    rw [greedyLoop_nil]
    norm_num
  show (runSteps (processDay [hMain] 0 2 none (some lateFlight)) (List.range' 1 2)
      { arena := [], unvisited := List.range 0, out := [] }).map
      (fun st => st.out.map (getC st.arena)) =
      some [transitPlaceholder 1 none, backfillPlaceholder 2 hMain]
  rw [show List.range' 1 2 = [1, 2] from rfl, show List.range 0 = ([] : List ℕ) from rfl]
  norm_num at h1
  simp only [runSteps]
  rw [h1]
  simp [runSteps, h2, getC]

theorem run_empty :
    optimizeRoute [] [hMain] 0 1 none none =
      some [backfillPlaceholder 1 hMain] := by
  have hnt : ¬ (dayEndTime none 1 1 - dayStartTime none 1 < 2) := by
    rw [dayStartTime_none_one, dayEndTime_none_last]; norm_num
  have hah : activeHotelFor (dayDate 0 1) [hMain] = some hMain :=
    activeHotelFor_hMain (by norm_num [dayDate]) (by norm_num [dayDate])
  have h1 : processDay [hMain] 0 1 none none 1
      { arena := [], unvisited := [], out := [] } =
      some { arena := [backfillPlaceholder 1 hMain], unvisited := [], out := [0] } := by
    rw [processDay_go hnt hah]
    simp only [filterPhase]
    rw [greedyLoop_nil]
    norm_num
  show (runSteps (processDay [hMain] 0 1 none none) (List.range' 1 1)
      { arena := [], unvisited := List.range 0, out := [] }).map
      (fun st => st.out.map (getC st.arena)) = some [backfillPlaceholder 1 hMain]
  rw [show List.range' 1 1 = [1] from rfl, show List.range 0 = ([] : List ℕ) from rfl]
  simp [runSteps, h1, getC]

end Storage

/-! ## Store and scan lemmas -/

theorem getC_set_self {arena : List CandidatePlace} {i : ℕ} (h : i < arena.length)
    (v : CandidatePlace) : getC (arena.set i v) i = v := by
  simp [getC, List.getD_eq_getElem?_getD, List.getElem?_set_self', h]

theorem getC_set_ne {i j : ℕ} (h : i ≠ j) (arena : List CandidatePlace)
    (v : CandidatePlace) : getC (arena.set i v) j = getC arena j := by
  simp [getC, List.getD_eq_getElem?_getD, List.getElem?_set_ne h]

theorem getC_append_left {arena : List CandidatePlace} {j : ℕ}
    (h : j < arena.length) (tail : List CandidatePlace) :
    getC (arena ++ tail) j = getC arena j := by
  simp [getC, List.getD_eq_getElem?_getD, List.getElem?_append_left h]

theorem getC_append_new (arena : List CandidatePlace) (p : CandidatePlace) :
    getC (arena ++ [p]) arena.length = p := by
  simp [getC, List.getD_eq_getElem?_getD]

theorem argminFirst_mem {f : α → ℝ} :
    ∀ {l : List α} {b : Fin l.length} {y : α},
      argminFirst f l = some (b, y) → y ∈ l ∧ l.get b = y
  | [], b, y => by simp [argminFirst]
  | x :: xs, b, y => by
    intro h
    rw [argminFirst] at h
    rcases hm : argminFirst f xs with _ | ⟨j, z⟩
    · rw [hm] at h
      simp only [Option.some.injEq, Prod.mk.injEq] at h
      obtain ⟨hb, hy⟩ := h
      subst hy
      refine ⟨List.mem_cons_self _ _, ?_⟩
      rw [← hb]
      rfl
    · rw [hm] at h
      dsimp only at h
      by_cases hlt : f z < f x
      · rw [if_pos hlt] at h
        simp only [Option.some.injEq, Prod.mk.injEq] at h
        obtain ⟨hb, hy⟩ := h
        have ih := argminFirst_mem (f := f) hm
        subst hy
        refine ⟨List.mem_cons_of_mem _ ih.1, ?_⟩
        rw [← hb]
        exact ih.2
      · rw [if_neg hlt] at h
        simp only [Option.some.injEq, Prod.mk.injEq] at h
        obtain ⟨hb, hy⟩ := h
        subst hy
        refine ⟨List.mem_cons_self _ _, ?_⟩
        rw [← hb]
        rfl

theorem argminFirst_isSome {f : α → ℝ} :
    ∀ {l : List α}, l ≠ [] → ∃ b y, argminFirst f l = some (b, y)
  | [], h => absurd rfl h
  | x :: xs, _ => by
    rw [argminFirst]
    rcases hm : argminFirst f xs with _ | ⟨j, z⟩
    · exact ⟨_, _, rfl⟩
    · dsimp only
      by_cases hlt : f z < f x
      · rw [if_pos hlt]
        exact ⟨_, _, rfl⟩
      · rw [if_neg hlt]
        exact ⟨_, _, rfl⟩

theorem removeFirstName_sublist (arena : List CandidatePlace) (nm : String) :
    ∀ uv : List ℕ, List.Sublist (removeFirstName arena nm uv) uv
  | [] => List.Sublist.refl []
  | j :: rest => by
    rw [removeFirstName]
    by_cases h : (getC arena j).name = nm
    · rw [if_pos h]
      exact List.sublist_cons_self j rest
    · rw [if_neg h]
      exact List.Sublist.cons₂ j (removeFirstName_sublist arena nm rest)

theorem removeFirstName_of_unique {arena : List CandidatePlace} {nm : String}
    {i₀ : ℕ} :
    ∀ {uv : List ℕ}, i₀ ∈ uv → (getC arena i₀).name = nm →
      (∀ j ∈ uv, (getC arena j).name = nm → j = i₀) →
      removeFirstName arena nm uv = uv.erase i₀ := by
  intro uv
  induction uv with
  | nil => intro h; simp at h
  | cons a rest ih =>
    intro hmem hname huniq
    rw [removeFirstName]
    by_cases ha : (getC arena a).name = nm
    · have ha0 : a = i₀ := huniq a (List.mem_cons_self _ _) ha
      subst ha0
      rw [if_pos ha, List.erase_cons_head]
    · have hmem' : i₀ ∈ rest := by
        rcases List.mem_cons.1 hmem with h | h
        · exact absurd (h ▸ hname) ha
        · exact h
      have hne : a ≠ i₀ := fun h => ha (h ▸ hname)
      rw [if_neg ha, List.erase_cons_tail (by simp [hne]),
        ih hmem' hname (fun j hj hn => huniq j (List.mem_cons_of_mem _ hj) hn)]

theorem argminFirst_eq_none {f : α → ℝ} :
    ∀ {l : List α}, argminFirst f l = none → l = []
  | [], _ => rfl
  | x :: xs, h => by
    rw [argminFirst] at h
    rcases hm : argminFirst f xs with _ | ⟨j, z⟩ <;> rw [hm] at h
    · simp at h
    · dsimp only at h
      by_cases hlt : f z < f x
      · rw [if_pos hlt] at h; simp at h
      · rw [if_neg hlt] at h; simp at h

theorem not_mem_eraseIdx_of_nodup :
    ∀ (l : List ℕ) (k : ℕ) (hk : k < l.length), l.Nodup →
      l.get ⟨k, hk⟩ ∉ l.eraseIdx k
  | a :: l, 0, _, hnd => by
    simp only [List.get_eq_getElem, List.getElem_cons_zero, List.eraseIdx_cons_zero]
    exact (List.nodup_cons.1 hnd).1
  | a :: l, k + 1, hk, hnd => by
    simp only [List.get_eq_getElem, List.getElem_cons_succ, List.eraseIdx_cons_succ]
    intro hmem
    have hk' : k < l.length := by simpa using hk
    rcases List.mem_cons.1 hmem with h | h
    · have hm2 : l[k] ∈ l := List.getElem_mem hk'
      exact (List.nodup_cons.1 hnd).1 (h ▸ hm2)
    · exact not_mem_eraseIdx_of_nodup l k hk' (List.nodup_cons.1 hnd).2 h

namespace Storage

theorem greedyRes_trivial (dayNum : ℕ) (pool : List ℕ) (st : OptState) (spots : ℕ) :
    GreedyRes dayNum pool st (st, spots) spots [] where
  hout := by simp
  hspots := by simp
  hsub := by simp
  hnd := List.nodup_nil
  hlen := rfl
  hframe := fun _ _ => rfl
  hcommit := by simp
  huv := List.Sublist.refl _
  hexact := fun _ i => by simp

theorem greedyLoop_spec (dayNum : ℕ) (mx : ℝ) :
    ∀ (n : ℕ) (pool : List ℕ) (t : ℝ) (loc : Coord) (spots : ℕ) (st : OptState),
      pool.length ≤ n → pool.Nodup → (∀ i ∈ pool, i < st.arena.length) →
      ∃ com, GreedyRes dayNum pool st
        (greedyLoop dayNum mx pool t loc spots st) spots com := by
  intro n
  induction n with
  | zero =>
    intro pool t loc spots st hlen _ _
    have hp : pool = [] := List.eq_nil_of_length_eq_zero (Nat.le_zero.1 hlen)
    subst hp
    rw [greedyLoop_nil]
    exact ⟨[], greedyRes_trivial dayNum [] st spots⟩
  | succ n ih =>
    intro pool t loc spots st hlen hnd hbound
    by_cases ht : t < mx
    · rcases hm : argminFirst (weightFrom st.arena loc) pool with _ | ⟨b, ci⟩
      · have hp : pool = [] := argminFirst_eq_none hm
        subst hp
        rw [greedyLoop_nil]
        exact ⟨[], greedyRes_trivial dayNum [] st spots⟩
      · have hmem := argminFirst_mem (f := weightFrom st.arena loc) hm
        have hlen' : (pool.eraseIdx b.1).length ≤ n := by
          rw [List.length_eraseIdx, if_pos b.2]
          omega
        have hsubl := List.eraseIdx_sublist pool b.1
        have hnd' : (pool.eraseIdx b.1).Nodup := List.Nodup.sublist hsubl hnd
        have hci_not : ci ∉ pool.eraseIdx b.1 := by
          have := not_mem_eraseIdx_of_nodup pool b.1 b.2 hnd
          rwa [hmem.2] at this
        by_cases hov : t + (weightFrom st.arena loc ci / 30 + 0.3) +
            (if (getC st.arena ci).durationHours = 0 then 1.5
             else (getC st.arena ci).durationHours) > mx + 0.5
        · rw [greedyLoop_skip ht hm hov]
          obtain ⟨com, hres⟩ := ih (pool.eraseIdx b.1) t loc spots st hlen' hnd'
            (fun i hi => hbound i (hsubl.subset hi))
          refine ⟨com, ⟨hres.hout, hres.hspots,
            fun j hj => hsubl.subset (hres.hsub j hj),
            hres.hnd, hres.hlen, hres.hframe, hres.hcommit, hres.huv,
            fun hH i => hres.hexact
              ⟨hH.1, fun i' hi' => hH.2.1 i' (hsubl.subset hi'), hH.2.2⟩ i⟩⟩
        · rw [greedyLoop_commit ht hm hov]
          have hci_lt : ci < st.arena.length := hbound ci hmem.1
          have hA1len : (commitState dayNum spots ci st).arena.length =
              st.arena.length := by
            simp [commitState, List.length_set]
          have hA1get_ci : getC (commitState dayNum spots ci st).arena ci =
              { getC st.arena ci with
                suggestedDay := some dayNum,
                matchReason := commitReason dayNum spots } := by
            simp only [commitState]
            exact getC_set_self hci_lt _
          have hA1get_ne : ∀ j, j ≠ ci →
              getC (commitState dayNum spots ci st).arena j = getC st.arena j := by
            intro j hj
            simp only [commitState]
            exact getC_set_ne (fun h => hj h.symm) _ _
          have hA1out : (commitState dayNum spots ci st).out = st.out ++ [ci] := rfl
          have hA1uv_sub : List.Sublist (commitState dayNum spots ci st).unvisited
              st.unvisited := removeFirstName_sublist _ _ _
          obtain ⟨com', hres⟩ := ih (pool.eraseIdx b.1)
            (t + (weightFrom st.arena loc ci / 30 + 0.3) +
              (if (getC st.arena ci).durationHours = 0 then 1.5
               else (getC st.arena ci).durationHours))
            ⟨(getC st.arena ci).latitude, (getC st.arena ci).longitude⟩
            (spots + 1) (commitState dayNum spots ci st) hlen' hnd'
            (fun i hi => hA1len ▸ hbound i (hsubl.subset hi))
          have hci_notcom : ci ∉ com' := fun h => hci_not (hres.hsub ci h)
          refine ⟨ci :: com', ?_⟩
          refine ⟨?_, ?_, ?_, ?_, ?_, ?_, ?_, ?_, ?_⟩
          · rw [hres.hout, hA1out, List.append_assoc]
            rfl
          · rw [hres.hspots]
            simp
            omega
          · intro j hj
            rcases List.mem_cons.1 hj with h | h
            · exact h ▸ hmem.1
            · exact hsubl.subset (hres.hsub j h)
          · exact List.nodup_cons.2 ⟨hci_notcom, hres.hnd⟩
          · rw [hres.hlen, hA1len]
          · intro j hj
            have hj_ci : j ≠ ci := fun h => hj (h ▸ List.mem_cons_self _ _)
            have hj_com : j ∉ com' := fun h => hj (List.mem_cons_of_mem _ h)
            rw [hres.hframe j hj_com, hA1get_ne j hj_ci]
          · intro j hj
            rcases List.mem_cons.1 hj with h | h
            · subst h
              rw [hres.hframe j hci_notcom, hA1get_ci]
              exact ⟨rfl, rfl, rfl, rfl⟩
            · have hj_ci : j ≠ ci := fun he => hci_not (he ▸ hres.hsub j h)
              obtain ⟨h1, h2, h3, h4⟩ := hres.hcommit j h
              rw [hA1get_ne j hj_ci] at h2 h3 h4
              exact ⟨h1, h2, h3, h4⟩
          · exact List.Sublist.trans hres.huv hA1uv_sub
          · rintro ⟨hinj, hpooluv, hnduv⟩ i
            have hci_uv : ci ∈ st.unvisited := hpooluv ci hmem.1
            have hrm : (commitState dayNum spots ci st).unvisited =
                st.unvisited.erase ci := by
              simp only [commitState]
              refine removeFirstName_of_unique hci_uv ?_ ?_
              · rw [getC_set_self hci_lt]
              · intro j hj hn
                by_cases hjc : j = ci
                · exact hjc
                · rw [getC_set_ne (fun h => hjc h.symm)] at hn
                  exact hinj j hj ci hci_uv hn
            have huv1_nd : (commitState dayNum spots ci st).unvisited.Nodup := by
              rw [hrm]
              exact hnduv.erase ci
            have hinj1 : nameInj (commitState dayNum spots ci st) := by
              intro i1 hi1 j1 hj1 hn
              have hi1' := hA1uv_sub.subset hi1
              have hj1' := hA1uv_sub.subset hj1
              have hi1c : i1 ≠ ci := by
                rw [hrm] at hi1
                exact ((hnduv.mem_erase_iff).1 hi1).1
              have hj1c : j1 ≠ ci := by
                rw [hrm] at hj1
                exact ((hnduv.mem_erase_iff).1 hj1).1
              rw [hA1get_ne i1 hi1c, hA1get_ne j1 hj1c] at hn
              exact hinj i1 hi1' j1 hj1' hn
            have hpool1 : ∀ i' ∈ pool.eraseIdx b.1,
                i' ∈ (commitState dayNum spots ci st).unvisited := by
              intro i' hi'
              rw [hrm]
              refine (hnduv.mem_erase_iff).2 ⟨?_, hpooluv i' (hsubl.subset hi')⟩
              intro he
              exact hci_not (he ▸ hi')
            have hiff := hres.hexact ⟨hinj1, hpool1, huv1_nd⟩ i
            rw [hiff, hrm, hnduv.mem_erase_iff]
            constructor
            · rintro ⟨⟨hic, hiu⟩, hicom⟩
              exact ⟨hiu, fun h => by
                rcases List.mem_cons.1 h with h' | h'
                · exact hic h'
                · exact hicom h'⟩
            · rintro ⟨hiu, hni⟩
              exact ⟨⟨fun h => hni (h ▸ List.mem_cons_self _ _), hiu⟩,
                fun h => hni (List.mem_cons_of_mem _ h)⟩
    · rw [greedyLoop_not_time ht]
      exact ⟨[], greedyRes_trivial dayNum pool st spots⟩

end Storage

namespace Storage

/-- The fields the per-day filter can never change (it only writes
`distanceFromHotel`). -/
theorem getC_set_dist_stable (arena : List CandidatePlace) (i j : ℕ)
    (v : Option ℝ) :
    (getC (arena.set i { getC arena i with distanceFromHotel := v }) j).name =
        (getC arena j).name ∧
      (getC (arena.set i { getC arena i with distanceFromHotel := v }) j).closedDays =
        (getC arena j).closedDays ∧
      (getC (arena.set i { getC arena i with distanceFromHotel := v }) j).score =
        (getC arena j).score ∧
      (getC (arena.set i { getC arena i with distanceFromHotel := v }) j).suggestedDay =
        (getC arena j).suggestedDay := by
  by_cases hij : i = j
  · subst hij
    by_cases hlt : i < arena.length
    · rw [getC_set_self hlt]
      exact ⟨rfl, rfl, rfl, rfl⟩
    · rw [List.set_eq_of_length_le (Nat.le_of_not_lt hlt)]
      exact ⟨rfl, rfl, rfl, rfl⟩
  · rw [getC_set_ne hij]
    exact ⟨rfl, rfl, rfl, rfl⟩

/-- What the per-day filter pass does: arena length preserved, records outside
the scanned pool untouched, the filter-stable fields of every record
preserved, the produced pool a sublist of the scanned one, and every pool
member open on the day's weekday. -/
theorem filterPhase_spec (dayNum : ℕ) (wd : ℤ) (ah : Hotel)
    (airport : Option Coord) (effR : ℝ) :
    ∀ (uv : List ℕ) (arena : List CandidatePlace),
      (filterPhase dayNum wd ah airport effR uv arena).1.length = arena.length ∧
      (∀ j, j ∉ uv →
        getC (filterPhase dayNum wd ah airport effR uv arena).1 j = getC arena j) ∧
      (∀ j,
        (getC (filterPhase dayNum wd ah airport effR uv arena).1 j).name =
          (getC arena j).name ∧
        (getC (filterPhase dayNum wd ah airport effR uv arena).1 j).closedDays =
          (getC arena j).closedDays ∧
        (getC (filterPhase dayNum wd ah airport effR uv arena).1 j).score =
          (getC arena j).score ∧
        (getC (filterPhase dayNum wd ah airport effR uv arena).1 j).suggestedDay =
          (getC arena j).suggestedDay) ∧
      List.Sublist (filterPhase dayNum wd ah airport effR uv arena).2 uv ∧
      (∀ i ∈ (filterPhase dayNum wd ah airport effR uv arena).2,
        wd ∉ (getC arena i).closedDays)
  | [], arena => by
    rw [filterPhase]
    exact ⟨rfl, fun _ _ => rfl, fun _ => ⟨rfl, rfl, rfl, rfl⟩,
      List.Sublist.refl _, by simp⟩
  | i :: rest, arena => by
    rw [filterPhase]
    by_cases hcl : wd ∈ (getC arena i).closedDays
    · rw [if_pos hcl]
      obtain ⟨h1, h2, h3, h4, h5⟩ := filterPhase_spec dayNum wd ah airport effR rest arena
      refine ⟨h1, fun j hj => h2 j (fun h => hj (List.mem_cons_of_mem _ h)), h3,
        List.Sublist.trans h4 (List.sublist_cons_self i rest), h5⟩
    · rw [if_neg hcl]
      dsimp only
      obtain ⟨h1, h2, h3, h4, h5⟩ := filterPhase_spec dayNum wd ah airport effR rest
        (arena.set i { getC arena i with
          distanceFromHotel := some (round1 (dayDist dayNum ah airport (getC arena i))) })
      have hstab := getC_set_dist_stable arena i
      refine ⟨?_, ?_, ?_, ?_, ?_⟩
      · rw [h1, List.length_set]
      · intro j hj
        have hji : j ≠ i := fun h => hj (h ▸ List.mem_cons_self _ _)
        rw [h2 j (fun h => hj (List.mem_cons_of_mem _ h)),
          getC_set_ne (fun h => hji h.symm)]
      · intro j
        obtain ⟨s1, s2, s3, s4⟩ := h3 j
        obtain ⟨t1, t2, t3, t4⟩ := hstab j _
        exact ⟨s1.trans t1, s2.trans t2, s3.trans t3, s4.trans t4⟩
      · by_cases hr : dayDist dayNum ah airport (getC arena i) ≤ effR
        · rw [if_pos hr]
          exact List.Sublist.cons₂ i h4
        · rw [if_neg hr]
          exact List.Sublist.trans h4 (List.sublist_cons_self i rest)
      · intro k hk
        have hmem : k ∈ (if dayDist dayNum ah airport (getC arena i) ≤ effR
            then i :: (filterPhase dayNum wd ah airport effR rest
              (arena.set i { getC arena i with
                distanceFromHotel :=
                  some (round1 (dayDist dayNum ah airport (getC arena i))) })).2
            else (filterPhase dayNum wd ah airport effR rest
              (arena.set i { getC arena i with
                distanceFromHotel :=
                  some (round1 (dayDist dayNum ah airport (getC arena i))) })).2) := hk
        by_cases hr : dayDist dayNum ah airport (getC arena i) ≤ effR
        · rw [if_pos hr] at hmem
          rcases List.mem_cons.1 hmem with h | h
          · exact h ▸ hcl
          · have := h5 k h
            rwa [(getC_set_dist_stable arena i k _).2.1] at this
        · rw [if_neg hr] at hmem
          have := h5 k hmem
          rwa [(getC_set_dist_stable arena i k _).2.1] at this

end Storage

namespace Storage

theorem activeHotelFor_isSome {hotels : List Hotel} (h : hotels ≠ []) (d : ℤ) :
    ∃ ah, activeHotelFor d hotels = some ah := by
  unfold activeHotelFor
  rcases h1 : hotels.find? (fun h => isDateInHotelStay d h.checkIn h.checkOut) with _ | a
  · rw [h1]
    dsimp only
    rcases h2 : hotels.find? (fun h => h.checkOut == some d) with _ | a
    · rw [h2]
      dsimp only
      rcases h3 : hotels.getLast? with _ | a
      · exact absurd (List.getLast?_eq_none_iff.1 h3) h
      · exact ⟨a, rfl⟩
    · rw [h2]
      exact ⟨a, rfl⟩
  · rw [h1]
    exact ⟨a, rfl⟩

theorem processDay_spec (hotels : List Hotel) (start : ℤ) (T : ℕ)
    (airport : Option Coord) (flight : Option FlightTimes)
    (dayNum : ℕ) (st : OptState)
    (hhot : hotels ≠ [])
    (huvb : ∀ i ∈ st.unvisited, i < st.arena.length)
    (huvd : st.unvisited.Nodup) :
    ∃ st' newOut,
      processDay hotels start T airport flight dayNum st = some st' ∧
      st'.out = st.out ++ newOut ∧
      newOut ≠ [] ∧
      st.arena.length ≤ st'.arena.length ∧
      (∀ j, j < st.arena.length →
        (getC st'.arena j).name = (getC st.arena j).name ∧
        (getC st'.arena j).closedDays = (getC st.arena j).closedDays ∧
        (getC st'.arena j).score = (getC st.arena j).score ∧
        ((getC st'.arena j).suggestedDay = (getC st.arena j).suggestedDay ∨ j ∈ newOut)) ∧
      (∀ j, j < st.arena.length → j ∉ st.unvisited →
        getC st'.arena j = getC st.arena j) ∧
      List.Sublist st'.unvisited st.unvisited ∧
      (∀ i ∈ st'.unvisited, i < st'.arena.length) ∧
      st'.unvisited.Nodup ∧
      (∀ j ∈ newOut,
        j < st'.arena.length ∧
        (getC st'.arena j).suggestedDay = some dayNum ∧
        ((getC st'.arena j).closedDays ≠ [] →
          dayOfWeek (dayDate start dayNum) ∉ (getC st'.arena j).closedDays) ∧
        (j ∈ st.unvisited ∨ st.arena.length ≤ j)) ∧
      (nameInj st →
        newOut.Nodup ∧
        (∀ j ∈ newOut, ∀ k ∈ newOut, j ≠ k →
          (getC st'.arena j).name ≠ (getC st'.arena k).name) ∧
        nameInj st' ∧
        (∀ i, i ∈ st'.unvisited ↔ i ∈ st.unvisited ∧ i ∉ newOut)) := by
  by_cases htr : dayEndTime flight dayNum T - dayStartTime flight dayNum < 2
  · -- transit day
    refine ⟨_, [st.arena.length], processDay_transit htr hotels start airport st,
      rfl, by simp, by simp, ?_, ?_, List.Sublist.refl _, ?_, huvd, ?_, ?_⟩
    · intro j hj
      rw [getC_append_left hj]
      exact ⟨rfl, rfl, rfl, Or.inl rfl⟩
    · intro j hj _
      exact getC_append_left hj _
    · intro i hi
      have := huvb i hi
      simp only [List.length_append, List.length_singleton]
      omega
    · intro j hj
      rcases List.mem_singleton.1 hj with rfl
      refine ⟨by simp, ?_, ?_, Or.inr le_rfl⟩
      · rw [getC_append_new]
        rfl
      · rw [getC_append_new]
        intro h
        exact absurd rfl h
    · intro hinj
      refine ⟨List.nodup_singleton _, ?_, ?_, ?_⟩
      · intro j hj k hk hjk
        rcases List.mem_singleton.1 hj with rfl
        rcases List.mem_singleton.1 hk with rfl
        exact absurd rfl hjk
      · intro i hi j hj hn
        have hib := huvb i hi
        have hjb := huvb j hj
        rw [getC_append_left hib, getC_append_left hjb] at hn
        exact hinj i hi j hj hn
      · intro i
        simp only [List.mem_singleton]
        constructor
        · intro hi
          exact ⟨hi, fun h => absurd (h ▸ huvb i hi) (lt_irrefl _)⟩
        · exact fun h => h.1
  · -- regular day
    obtain ⟨ah, hah⟩ := activeHotelFor_isSome hhot (dayDate start dayNum)
    obtain ⟨f1, f2, f3, f4, f5⟩ := filterPhase_spec dayNum
      (dayOfWeek (dayDate start dayNum)) ah airport
      (effRadius st.unvisited.length) st.unvisited st.arena
    set fp := filterPhase dayNum (dayOfWeek (dayDate start dayNum)) ah airport
      (effRadius st.unvisited.length) st.unvisited st.arena with hfp
    have hpool_nd : fp.2.Nodup := List.Nodup.sublist f4 huvd
    have hpool_b : ∀ i ∈ fp.2, i < fp.1.length := by
      intro i hi
      rw [f1]
      exact huvb i (f4.subset hi)
    obtain ⟨com, gres⟩ := greedyLoop_spec dayNum (dayEndTime flight dayNum T)
      fp.2.length fp.2 (dayStartTime flight dayNum) (dayStartLoc dayNum airport ah)
      0 { st with arena := fp.1 } le_rfl hpool_nd hpool_b
    set gl := greedyLoop dayNum (dayEndTime flight dayNum T) fp.2
      (dayStartTime flight dayNum) (dayStartLoc dayNum airport ah) 0
      { st with arena := fp.1 } with hgl
    have hglarena_len : gl.1.arena.length = st.arena.length := by
      rw [gres.hlen, f1]
    have hstable_gl : ∀ j, j < st.arena.length →
        (getC gl.1.arena j).name = (getC st.arena j).name ∧
        (getC gl.1.arena j).closedDays = (getC st.arena j).closedDays ∧
        (getC gl.1.arena j).score = (getC st.arena j).score ∧
        ((getC gl.1.arena j).suggestedDay = (getC st.arena j).suggestedDay ∨ j ∈ com) := by
      intro j _
      by_cases hjc : j ∈ com
      · obtain ⟨c1, c2, c3, c4⟩ := gres.hcommit j hjc
        obtain ⟨s1, s2, s3, s4⟩ := f3 j
        exact ⟨c2.trans s1, c3.trans s2, c4.trans s3, Or.inr hjc⟩
      · have := gres.hframe j hjc
        rw [this]
        obtain ⟨s1, s2, s3, s4⟩ := f3 j
        exact ⟨s1, s2, s3, Or.inl s4⟩
    have hframe_gl : ∀ j, j < st.arena.length → j ∉ st.unvisited →
        getC gl.1.arena j = getC st.arena j := by
      intro j hj hju
      have hjc : j ∉ com := fun h => hju (f4.subset (gres.hsub j h))
      rw [gres.hframe j hjc]
      exact f2 j hju
    have hcom_cd : ∀ j ∈ com,
        (getC gl.1.arena j).closedDays ≠ [] →
        dayOfWeek (dayDate start dayNum) ∉ (getC gl.1.arena j).closedDays := by
      intro j hj _
      have h5 := f5 j (gres.hsub j hj)
      obtain ⟨_, _, c3, _⟩ := gres.hcommit j hj
      obtain ⟨_, s2, _, _⟩ := f3 j
      rw [c3, s2]
      exact h5
    rw [processDay_go htr hah]
    dsimp only
    rw [← hfp, ← hgl]
    by_cases hz : gl.2 = 0
    · -- no commitment: backfill placeholder
      have hcom_nil : com = [] := by
        have := gres.hspots
        rw [hz] at this
        have hl : com.length = 0 := by omega
        exact List.eq_nil_of_length_eq_zero hl
      rw [if_pos hz]
      have hglarena : ∀ j, getC gl.1.arena j = getC fp.1 j := by
        intro j
        exact gres.hframe j (by rw [hcom_nil]; simp)
      refine ⟨_, [gl.1.arena.length], rfl, ?_, by simp, ?_, ?_, ?_, ?_, ?_, ?_, ?_, ?_⟩
      · rw [gres.hout, hcom_nil]
        simp
      · simp only [List.length_append, List.length_singleton]
        omega
      · intro j hj
        have hjlt : j < gl.1.arena.length := by rw [hglarena_len]; exact hj
        rw [getC_append_left hjlt]
        obtain ⟨s1, s2, s3, s4⟩ := hstable_gl j hj
        rcases s4 with s4 | s4
        · exact ⟨s1, s2, s3, Or.inl s4⟩
        · rw [hcom_nil] at s4
          simp at s4
      · intro j hj hju
        have hjlt : j < gl.1.arena.length := by rw [hglarena_len]; exact hj
        rw [getC_append_left hjlt]
        exact hframe_gl j hj hju
      · exact gres.huv
      · intro i hi
        have := huvb i (gres.huv.subset hi)
        simp only [List.length_append, List.length_singleton]
        omega
      · exact List.Nodup.sublist gres.huv huvd
      · intro j hj
        rcases List.mem_singleton.1 hj with rfl
        refine ⟨by simp, ?_, ?_, Or.inr (by rw [hglarena_len])⟩
        · rw [getC_append_new]
          rfl
        · rw [getC_append_new]
          intro h
          exact absurd rfl h
      · intro hinj
        have hinj1 : nameInj { st with arena := fp.1 } := by
          intro i hi j hj hn
          obtain ⟨s1, _, _, _⟩ := f3 i
          obtain ⟨t1, _, _, _⟩ := f3 j
          simp only at hn hi hj
          rw [s1, t1] at hn
          exact hinj i hi j hj hn
        have hiff := gres.hexact ⟨hinj1, fun i hi => f4.subset hi, huvd⟩
        refine ⟨List.nodup_singleton _, ?_, ?_, ?_⟩
        · intro j hj k hk hjk
          rcases List.mem_singleton.1 hj with rfl
          rcases List.mem_singleton.1 hk with rfl
          exact absurd rfl hjk
        · intro i hi j hj hn
          have hib : i < st.arena.length := huvb i (gres.huv.subset hi)
          have hjb : j < st.arena.length := huvb j (gres.huv.subset hj)
          have hib' : i < gl.1.arena.length := by rw [hglarena_len]; exact hib
          have hjb' : j < gl.1.arena.length := by rw [hglarena_len]; exact hjb
          rw [getC_append_left hib', getC_append_left hjb'] at hn
          obtain ⟨s1, _, _, _⟩ := hstable_gl i hib
          obtain ⟨t1, _, _, _⟩ := hstable_gl j hjb
          rw [s1, t1] at hn
          exact hinj i (gres.huv.subset hi) j (gres.huv.subset hj) hn
        · intro i
          simp only [List.mem_singleton]
          constructor
          · intro hi
            have hiu := (hiff i).1 hi
            rw [hcom_nil] at hiu
            refine ⟨hiu.1, fun h => ?_⟩
            have := huvb i hiu.1
            rw [h, hglarena_len] at this
            exact absurd this (lt_irrefl _)
          · intro ⟨hiu, _⟩
            exact (hiff i).2 ⟨hiu, by rw [hcom_nil]; simp⟩
    · -- at least one commitment
      rw [if_neg hz]
      refine ⟨gl.1, com, rfl, gres.hout, ?_, le_of_eq hglarena_len.symm,
        hstable_gl, hframe_gl, gres.huv, ?_, List.Nodup.sublist gres.huv huvd,
        ?_, ?_⟩
      · intro h
        rw [h] at gres
        have := gres.hspots
        simp at this
        exact hz this
      · intro i hi
        rw [hglarena_len]
        exact huvb i (gres.huv.subset hi)
      · intro j hj
        refine ⟨?_, (gres.hcommit j hj).1, hcom_cd j hj, Or.inl (f4.subset (gres.hsub j hj))⟩
        rw [hglarena_len]
        exact huvb j (f4.subset (gres.hsub j hj))
      · intro hinj
        have hinj1 : nameInj { st with arena := fp.1 } := by
          intro i hi j hj hn
          obtain ⟨s1, _, _, _⟩ := f3 i
          obtain ⟨t1, _, _, _⟩ := f3 j
          simp only at hn hi hj
          rw [s1, t1] at hn
          exact hinj i hi j hj hn
        have hiff := gres.hexact ⟨hinj1, fun i hi => f4.subset hi, huvd⟩
        refine ⟨gres.hnd, ?_, ?_, hiff⟩
        · intro j hj k hk hjk
          obtain ⟨j1, j2, _, _⟩ := hstable_gl j (huvb j (f4.subset (gres.hsub j hj)))
          obtain ⟨k1, k2, _, _⟩ := hstable_gl k (huvb k (f4.subset (gres.hsub k hk)))
          rw [j1, k1]
          intro hn
          exact hjk (hinj j (f4.subset (gres.hsub j hj)) k (f4.subset (gres.hsub k hk)) hn)
        · intro i hi j hj hn
          have hib : i < st.arena.length := huvb i (gres.huv.subset hi)
          have hjb : j < st.arena.length := huvb j (gres.huv.subset hj)
          obtain ⟨s1, _, _, _⟩ := hstable_gl i hib
          obtain ⟨t1, _, _, _⟩ := hstable_gl j hjb
          rw [s1, t1] at hn
          exact hinj i (gres.huv.subset hi) j (gres.huv.subset hj) hn

end Storage

namespace Storage

theorem runSteps_spec (hotels : List Hotel) (start : ℤ) (T : ℕ)
    (airport : Option Coord) (flight : Option FlightTimes) (hhot : hotels ≠ []) :
    ∀ (ds : List ℕ) (st : OptState),
      (∀ i ∈ st.unvisited, i < st.arena.length) →
      st.unvisited.Nodup → ds.Nodup →
      ∃ st' newOut,
        runSteps (processDay hotels start T airport flight) ds st = some st' ∧
        st'.out = st.out ++ newOut ∧
        st.arena.length ≤ st'.arena.length ∧
        (∀ j, j < st.arena.length →
          (getC st'.arena j).name = (getC st.arena j).name ∧
          (getC st'.arena j).closedDays = (getC st.arena j).closedDays ∧
          (getC st'.arena j).score = (getC st.arena j).score ∧
          ((getC st'.arena j).suggestedDay = (getC st.arena j).suggestedDay ∨ j ∈ newOut)) ∧
        (∀ j, j < st.arena.length → j ∉ st.unvisited →
          getC st'.arena j = getC st.arena j) ∧
        List.Sublist st'.unvisited st.unvisited ∧
        (∀ i ∈ st'.unvisited, i < st'.arena.length) ∧
        st'.unvisited.Nodup ∧
        (∀ j ∈ newOut,
          j < st'.arena.length ∧
          (∃ d ∈ ds, (getC st'.arena j).suggestedDay = some d ∧
            ((getC st'.arena j).closedDays ≠ [] →
              dayOfWeek (dayDate start d) ∉ (getC st'.arena j).closedDays)) ∧
          (j ∈ st.unvisited ∨ st.arena.length ≤ j)) ∧
        (nameInj st →
          nameInj st' ∧
          newOut.Nodup ∧
          (∀ i, i ∈ st'.unvisited ↔ i ∈ st.unvisited ∧ i ∉ newOut) ∧
          (∀ j ∈ newOut, ∀ k ∈ newOut, j ≠ k →
            getC st'.arena j ≠ getC st'.arena k) ∧
          (∀ d ∈ ds, ∃ j ∈ newOut, (getC st'.arena j).suggestedDay = some d)) := by
  intro ds
  induction ds with
  | nil =>
    intro st huvb huvd _
    refine ⟨st, [], rfl, by simp, le_rfl, ?_, ?_, List.Sublist.refl _, huvb, huvd,
      by simp, ?_⟩
    · intro j _
      exact ⟨rfl, rfl, rfl, Or.inl rfl⟩
    · intro j _ _
      rfl
    · intro hinj
      refine ⟨hinj, List.nodup_nil, ?_, by simp, by simp⟩
      intro i
      simp
  | cons d ds ih =>
    intro st huvb huvd hdsnd
    obtain ⟨st1, n1, hrun1, hout1, hne1, hlen1, hstable1, hframe1, huv1, hub1,
      hnd1, hmem1, hcond1⟩ :=
      processDay_spec hotels start T airport flight d st hhot huvb huvd
    obtain ⟨st', n2, hrun2, hout2, hlen2, hstable2, hframe2, huv2, hub2, hnd2,
      hmem2, hcond2⟩ := ih st1 hub1 hnd1 (List.Nodup.of_cons hdsnd)
    have hd_notin : d ∉ ds := (List.nodup_cons.1 hdsnd).1
    refine ⟨st', n1 ++ n2, ?_, ?_, hlen1.trans hlen2, ?_, ?_, huv2.trans huv1,
      hub2, hnd2, ?_, ?_⟩
    · show runSteps (processDay hotels start T airport flight) (d :: ds) st = some st'
      simp only [runSteps, hrun1]
      exact hrun2
    · rw [hout2, hout1, List.append_assoc]
    · intro j hj
      have hj1 : j < st1.arena.length := lt_of_lt_of_le hj hlen1
      obtain ⟨a1, a2, a3, a4⟩ := hstable1 j hj
      obtain ⟨b1, b2, b3, b4⟩ := hstable2 j hj1
      refine ⟨b1.trans a1, b2.trans a2, b3.trans a3, ?_⟩
      rcases b4 with b4 | b4
      · rcases a4 with a4 | a4
        · exact Or.inl (b4.trans a4)
        · exact Or.inr (List.mem_append_left _ a4)
      · exact Or.inr (List.mem_append_right _ b4)
    · intro j hj hju
      have hj1 : j < st1.arena.length := lt_of_lt_of_le hj hlen1
      have hju1 : j ∉ st1.unvisited := fun h => hju (huv1.subset h)
      rw [hframe2 j hj1 hju1]
      exact hframe1 j hj hju
    · intro j hj
      by_cases hj2 : j ∈ n2
      · obtain ⟨m1, ⟨d', hd', m2, m3⟩, m4⟩ := hmem2 j hj2
        refine ⟨m1, ⟨d', List.mem_cons_of_mem _ hd', m2, m3⟩, ?_⟩
        rcases m4 with m4 | m4
        · exact Or.inl (huv1.subset m4)
        · exact Or.inr (hlen1.trans m4)
      · have hj1 : j ∈ n1 := by
          rcases List.mem_append.1 hj with h | h
          · exact h
          · exact absurd h hj2
        obtain ⟨m1, m2, m3, m4⟩ := hmem1 j hj1
        obtain ⟨b1, b2, b3, b4⟩ := hstable2 j m1
        have hsd : (getC st'.arena j).suggestedDay = some d := by
          rcases b4 with b4 | b4
          · exact b4.trans m2
          · exact absurd b4 hj2
        refine ⟨lt_of_lt_of_le m1 hlen2, ⟨d, List.mem_cons_self _ _, hsd, ?_⟩, m4⟩
        rw [b2]
        exact m3
    · intro hinj
      obtain ⟨hn1nd, hpair1, hinj1, hiff1⟩ := hcond1 hinj
      obtain ⟨hinj', hn2nd, hiff2, hpair2, hcov2⟩ := hcond2 hinj1
      have hdisj : ∀ j ∈ n1, j ∉ n2 := by
        intro j hj1 hj2
        obtain ⟨m1, _, _, _⟩ := hmem1 j hj1
        have hju1 : j ∉ st1.unvisited := by
          intro h
          exact ((hiff1 j).1 h).2 hj1
        obtain ⟨_, _, m4⟩ := hmem2 j hj2
        rcases m4 with m4 | m4
        · exact hju1 m4
        · exact absurd m1 (not_lt.2 m4)
      have hfrozen : ∀ j ∈ n1, getC st'.arena j = getC st1.arena j := by
        intro j hj1
        obtain ⟨m1, _, _, _⟩ := hmem1 j hj1
        have hju1 : j ∉ st1.unvisited := by
          intro h
          exact ((hiff1 j).1 h).2 hj1
        exact hframe2 j m1 hju1
      refine ⟨hinj', List.Nodup.append hn1nd hn2nd hdisj, ?_, ?_, ?_⟩
      · intro i
        rw [hiff2 i, hiff1 i, List.mem_append]
        tauto
      · intro j hj k hk hjk
        rcases List.mem_append.1 hj with hj1 | hj2
        · rcases List.mem_append.1 hk with hk1 | hk2
          · -- both committed on day d: distinct names
            obtain ⟨mj, _, _, _⟩ := hmem1 j hj1
            obtain ⟨mk, _, _, _⟩ := hmem1 k hk1
            obtain ⟨bj, _, _, _⟩ := hstable2 j mj
            obtain ⟨bk, _, _, _⟩ := hstable2 k mk
            intro heq
            exact hpair1 j hj1 k hk1 hjk (by rw [← bj, ← bk, heq])
          · -- j frozen on day d, k stamped on a later day
            obtain ⟨_, mj2, _, _⟩ := hmem1 j hj1
            obtain ⟨_, ⟨d', hd', mk2, _⟩, _⟩ := hmem2 k hk2
            intro heq
            have : (getC st'.arena j).suggestedDay = some d := by
              rw [hfrozen j hj1]
              exact mj2
            rw [heq, mk2] at this
            exact hd_notin (Option.some_inj.1 this ▸ hd')
        · rcases List.mem_append.1 hk with hk1 | hk2
          · obtain ⟨_, mk2, _, _⟩ := hmem1 k hk1
            obtain ⟨_, ⟨d', hd', mj2, _⟩, _⟩ := hmem2 j hj2
            intro heq
            have : (getC st'.arena k).suggestedDay = some d := by
              rw [hfrozen k hk1]
              exact mk2
            rw [← heq, mj2] at this
            exact hd_notin (Option.some_inj.1 this ▸ hd')
          · exact hpair2 j hj2 k hk2 hjk
      · intro d' hd'
        rcases List.mem_cons.1 hd' with rfl | hd'
        · obtain ⟨j, hj⟩ := List.exists_mem_of_ne_nil n1 hne1
          obtain ⟨_, mj2, _, _⟩ := hmem1 j hj
          refine ⟨j, List.mem_append_left _ hj, ?_⟩
          rw [hfrozen j hj]
          exact mj2
        · obtain ⟨j, hj, hsd⟩ := hcov2 d' hd'
          exact ⟨j, List.mem_append_right _ hj, hsd⟩

end Storage

theorem getC_eq_getElem {cands : List CandidatePlace} {i : ℕ} (hi : i < cands.length) :
    getC cands i = cands.get ⟨i, hi⟩ := by
  simp [getC, List.getD_eq_getElem?_getD, List.getElem?_eq_getElem hi]

theorem nameInj_range {cands : List CandidatePlace}
    (h : (cands.map CandidatePlace.name).Nodup) :
    nameInj { arena := cands, unvisited := List.range cands.length, out := [] } := by
  intro i hi j hj hn
  simp only [List.mem_range] at hi hj
  have hi2 : i < (cands.map CandidatePlace.name).length := by simpa using hi
  have hj2 : j < (cands.map CandidatePlace.name).length := by simpa using hj
  have hg : (cands.map CandidatePlace.name).get ⟨i, hi2⟩ =
      (cands.map CandidatePlace.name).get ⟨j, hj2⟩ := by
    simp only [List.get_eq_getElem, List.getElem_map]
    dsimp only at hn
    rw [getC_eq_getElem hi, getC_eq_getElem hj] at hn
    simpa [List.get_eq_getElem] using hn
  have := (List.nodup_iff_injective_get.1 h) hg
  simpa using congrArg Fin.val this

/-- C1 (corrected: the partition guarantee additionally requires the candidate
names to be pairwise distinct).  For `totalDays ≥ 1`, a non-empty lodging list
and a non-empty candidate list with pairwise-distinct names, `optimizeRoute`
succeeds, every day in `1..totalDays` receives at least one output entry
(placeholders included), every output entry carries an assigned day inside
`[1, totalDays]`, and no record appears in the output twice. -/
theorem C1_day_partition (cands : List CandidatePlace) (hotels : List Hotel)
    (start : ℤ) (T : ℕ) (airport : Option Coord) (flight : Option FlightTimes)
    (hT : 1 ≤ T) (hhot : hotels ≠ []) (hc : cands ≠ [])
    (hnames : (cands.map CandidatePlace.name).Nodup) :
    ∃ out, Storage.optimizeRoute cands hotels start T airport flight = some out ∧
      (∀ d, 1 ≤ d → d ≤ T → ∃ c ∈ out, c.suggestedDay = some d) ∧
      (∀ c ∈ out, ∃ d, 1 ≤ d ∧ d ≤ T ∧ c.suggestedDay = some d) ∧
      out.Nodup := by
  obtain ⟨st', newOut, hrun, hout, _, _, _, _, _, _, hmem, hcond⟩ :=
    Storage.runSteps_spec hotels start T airport flight hhot (List.range' 1 T)
      { arena := cands, unvisited := List.range cands.length, out := [] }
      (by intro i hi; simpa using hi)
      (List.nodup_range _)
      (List.nodup_range' _ _)
  obtain ⟨hinj', hnd, hiff, hpair, hcov⟩ := hcond (nameInj_range hnames)
  have hout' : st'.out = newOut := by
    rw [hout]
    rfl
  refine ⟨newOut.map (getC st'.arena), ?_, ?_, ?_, ?_⟩
  · unfold Storage.optimizeRoute
    rw [hrun, Option.map_some', hout']
  · intro d h1 h2
    have hd : d ∈ List.range' 1 T := by
      rw [List.mem_range'_1]
      omega
    obtain ⟨j, hj, hsd⟩ := hcov d hd
    exact ⟨getC st'.arena j, List.mem_map_of_mem _ hj, hsd⟩
  · intro c hc'
    obtain ⟨j, hj, rfl⟩ := List.mem_map.1 hc'
    obtain ⟨_, ⟨d, hd, hsd, _⟩, _⟩ := hmem j hj
    rw [List.mem_range'_1] at hd
    exact ⟨d, hd.1, by omega, hsd⟩
  · refine List.Nodup.map_on ?_ hnd
    intro j hj k hk hfe
    by_contra hne
    exact hpair j hj k hk hne hfe

theorem C1_day_partition_witness :
    ∃ out, Storage.optimizeRoute [cTime] [hMain] 0 1 none none = some out ∧
      (∀ d, 1 ≤ d → d ≤ 1 → ∃ c ∈ out, c.suggestedDay = some d) ∧
      (∀ c ∈ out, ∃ d, 1 ≤ d ∧ d ≤ 1 ∧ c.suggestedDay = some d) ∧
      out.Nodup :=
  C1_day_partition [cTime] [hMain] 0 1 none none le_rfl (by simp) (by simp)
    (by simp)

/-- C1 counterexample for the unqualified claim: two distinct records sharing
the name "雙子塔" break the partition guarantee — the run succeeds, yet the
same record appears in the output twice and day 1's bucket is empty. -/
theorem C1_duplicate_ctrex :
    Storage.optimizeRoute [cdupA, cdupB] [hMain] 0 2 none none =
      some [cdupB2, cdupB2] ∧
    ([cdupA, cdupB] : List CandidatePlace) ≠ [] ∧
    ([hMain] : List Hotel) ≠ [] ∧
    ¬ ([cdupB2, cdupB2] : List CandidatePlace).Nodup ∧
    ¬ (∃ c ∈ ([cdupB2, cdupB2] : List CandidatePlace),
        c.suggestedDay = some 1) := by
  refine ⟨Storage.run_dup, by simp, by simp, by simp, ?_⟩
  rintro ⟨c, hc, h⟩
  rcases List.mem_cons.1 hc with rfl | hc
  · exact absurd h (by decide)
  · rcases List.mem_singleton.1 hc with rfl
    exact absurd h (by decide)

/-- C10: the optimizer removes an assigned candidate from the global pool by
searching for the *first* record with the chosen record's name, so the
no-duplicate guarantee needs pairwise-distinct names: on two distinct
same-named records the removal deletes the wrong twin (`cdupA`), the chosen
record `cdupB` is committed on day 1, re-committed on day 2, and is emitted
twice while `cdupA`'s record never reaches the output. -/
theorem C10_name_based_removal :
    cdupA.name = cdupB.name ∧
    cdupA ≠ cdupB ∧
    removeFirstName [cdupA1, cdupB1] cdupB.name [0, 1] = [1] ∧
    Storage.processDay [hMain] 0 2 none none 1
      { arena := [cdupA, cdupB], unvisited := [0, 1], out := [] } =
      some { arena := [cdupA1, cdupB1], unvisited := [1], out := [1] } ∧
    cdupB1.suggestedDay = some 1 ∧
    Storage.optimizeRoute [cdupA, cdupB] [hMain] 0 2 none none =
      some [cdupB2, cdupB2] ∧
    cdupB2.suggestedDay = some 2 ∧
    cdupB2.description = cdupB.description ∧
    (∀ c ∈ ([cdupB2, cdupB2] : List CandidatePlace),
      c.description ≠ cdupA.description) := by
  refine ⟨rfl, ?_, ?_, Storage.run_dup_day1, rfl, Storage.run_dup, rfl, rfl, ?_⟩
  · intro h
    exact absurd (congrArg CandidatePlace.description h) (by decide)
  · simp [removeFirstName, getC, cdupA1, cdupA, cdupB1, cdupB]
  · intro c hc
    rcases List.mem_cons.1 hc with rfl | hc
    · exact (by decide : ¬ (cdupB2.description = cdupA.description))
    · rcases List.mem_singleton.1 hc with rfl
      exact (by decide : ¬ (cdupB2.description = cdupA.description))

namespace Storage

theorem run_cOpen :
    optimizeRoute [cOpen] [hMain] 0 1 none none = some [cOpen2] := by
  have hnt : ¬ (dayEndTime none 1 1 - dayStartTime none 1 < 2) := by
    rw [dayStartTime_none_one, dayEndTime_none_last]; norm_num
  have hah : activeHotelFor (dayDate 0 1) [hMain] = some hMain :=
    activeHotelFor_hMain (by norm_num [dayDate]) (by norm_num [dayDate])
  have hfp : filterPhase 1 (dayOfWeek (dayDate 0 1)) hMain none (effRadius 1)
      [0] [cOpen] = ([cOpen1], [0]) := by
    norm_num [filterPhase, dayDist, getC, cOpen, cTime, hMain, cOpen1, optTruthy,
      round1, calculateDistance_self, effRadius, dayOfWeek, dayDate,
      List.mem_singleton]
  have harg : argminFirst (weightFrom [cOpen1] ⟨1, 2⟩) [0] =
      some (⟨0, by norm_num⟩, 0) := by
    simp [argminFirst]
  have hw : weightFrom [cOpen1] ⟨1, 2⟩ 0 = -3 := by
    simp [weightFrom, getC, cOpen1, cOpen, cTime, calculateDistance_self]
    norm_num
  have hloc : dayStartLoc 1 none hMain = (⟨1, 2⟩ : Coord) := by
    simp [dayStartLoc, hMain]
  have hcommit2 : greedyLoop 1 14.5 [0] 12.5 ⟨1, 2⟩ 0
      { arena := [cOpen1], unvisited := [0], out := [] } =
      ({ arena := [cOpen2], unvisited := [], out := [0] }, 1) := by
    rw [greedyLoop_commit (s := { arena := [cOpen1], unvisited := [0], out := [] })
      (b := ⟨0, by norm_num⟩) (c := 0)
      (t := 12.5) (m := 14.5) (l := ⟨1, 2⟩)
      (by norm_num) harg
      (by rw [hw]; norm_num [getC, cOpen1, cOpen, cTime])]
    norm_num [List.eraseIdx, greedyLoop_nil, getC, cOpen1, cOpen2, cOpen, cTime,
      removeFirstName, commitState, commitReason, List.set]
    rfl
  have hpd : processDay [hMain] 0 1 none none 1
      { arena := [cOpen], unvisited := [0], out := [] } =
      some { arena := [cOpen2], unvisited := [], out := [0] } := by
    rw [processDay_go hnt hah]
    simp only [List.length_singleton, dayStartTime_none_one, dayEndTime_none_last,
      hloc, hfp]
    rw [hcommit2]
    norm_num
  show (runSteps (processDay [hMain] 0 1 none none) (List.range' 1 1)
      { arena := [cOpen], unvisited := List.range 1, out := [] }).map
      (fun st => st.out.map (getC st.arena)) = some [cOpen2]
  rw [show List.range' 1 1 = [1] from rfl, show List.range 1 = [0] from rfl]
  simp [runSteps, hpd, getC]

end Storage

theorem run_cRest : EngineV2.optimizeRoute [cRest] (some ⟨1, 2⟩) 0 1 = [cRestL] := by
  have hwd : dayOfWeek (dayDate 0 1) = 4 := by decide
  have hpd : EngineV2.processDay ⟨1, 2⟩ 0 2 1
      { arena := [cRest], unvisited := [0], out := [] } =
      some { arena := [cRest], unvisited := [0], out := [] } := by
    rw [EngineV2.processDay]
    rw [show ([0] : List ℕ).filter (fun i => decide
        (dayOfWeek (dayDate 0 1) ∉ (getC [cRest] i).closedDays)) = [] by
      simp [hwd, getC, cRest, List.filter]]
    rfl
  have hrs : runSteps (EngineV2.processDay ⟨1, 2⟩ 0 2) [1]
      { arena := [cRest], unvisited := [0], out := [] } =
      some { arena := [cRest], unvisited := [0], out := [] } := by
    simp [runSteps, hpd]
  have hlo : EngineV2.leftoverPhase 1 [0]
      { arena := [cRest], unvisited := [0], out := [] } =
      { arena := [cRestL], unvisited := [0], out := [0] } := by
    simp [EngineV2.leftoverPhase, getC, List.set, cRest, cRestL]
  rw [EngineV2.optimizeRoute]
  rw [if_neg (by simp)]
  simp only [List.length_singleton, show List.range 1 = [0] from rfl,
    show List.range' 1 1 = [1] from rfl,
    show (1 + 1 - 1) / 1 + 1 = 2 from rfl, hrs, Option.getD_some, hlo]
  simp [getC]

/-- C4 (corrected: the closed-day invariant holds for the current
storageService optimizer, whose per-day filter skips candidates closed on the
day's weekday before they can be committed; the earlier shared iteration's
leftover pass violates it — see the counterexample).  Every entry of a
successful `optimizeRoute` output that has a non-empty `closedDays` set is
assigned a day whose weekday is outside that set. -/
theorem C4_no_closed_day_assignment (cands : List CandidatePlace)
    (hotels : List Hotel) (start : ℤ) (T : ℕ) (airport : Option Coord)
    (flight : Option FlightTimes) (out : List CandidatePlace)
    (hhot : hotels ≠ [])
    (hout : Storage.optimizeRoute cands hotels start T airport flight = some out) :
    ∀ c ∈ out, c.closedDays ≠ [] → ∀ d, c.suggestedDay = some d →
      dayOfWeek (dayDate start d) ∉ c.closedDays := by
  obtain ⟨st', newOut, hrun, hout', _, _, _, _, _, _, hmem, _⟩ :=
    Storage.runSteps_spec hotels start T airport flight hhot (List.range' 1 T)
      { arena := cands, unvisited := List.range cands.length, out := [] }
      (by intro i hi; simpa using hi) (List.nodup_range _)
      (List.nodup_range' _ _)
  unfold Storage.optimizeRoute at hout
  rw [hrun, Option.map_some'] at hout
  have hoz : out = newOut.map (getC st'.arena) := by
    rw [← Option.some_inj.1 hout, hout']
    rfl
  intro c hc hcd d hsd
  rcases List.mem_map.1 (hoz ▸ hc) with ⟨j, hj, rfl⟩
  obtain ⟨_, ⟨d', _, hsd', hcomp⟩, _⟩ := hmem j hj
  have hdd : d' = d := Option.some_inj.1 (hsd'.symm.trans hsd)
  rw [← hdd]
  exact hcomp hcd

theorem C4_no_closed_day_assignment_witness :
    dayOfWeek (dayDate 0 1) ∉ cOpen2.closedDays :=
  C4_no_closed_day_assignment [cOpen] [hMain] 0 1 none none [cOpen2]
    (by simp) Storage.run_cOpen cOpen2 (List.mem_singleton.2 rfl)
    (by decide) 1 rfl

/-- C4 counterexample for the earlier shared iteration: its leftover pass
stamps every still-unassigned candidate onto the final day with no closed-day
check — `cRest` is closed on weekday 4, trip day 1 falls on weekday 4, yet it
is emitted assigned to day 1. -/
theorem C4_leftover_ctrex :
    EngineV2.optimizeRoute [cRest] (some ⟨1, 2⟩) 0 1 = [cRestL] ∧
    cRestL.closedDays ≠ [] ∧
    cRestL.suggestedDay = some 1 ∧
    dayOfWeek (dayDate 0 1) ∈ cRestL.closedDays :=
  ⟨run_cRest, by decide, rfl, by decide⟩

/-- C6: when the day-1 operating window (flight arrival plus the fixed buffer,
against the day's window end) collapses below the 2-hour transit threshold,
the optimizer emits for day 1 exactly one placeholder transit entry and zero
scheduled POIs: the day-1 bucket of the output is precisely
`[transitPlaceholder 1 airport]`. -/
theorem C6_transit_day (cands : List CandidatePlace) (hotels : List Hotel)
    (start : ℤ) (T : ℕ) (airport : Option Coord) (flight : Option FlightTimes)
    (hhot : hotels ≠ []) (hT : 1 ≤ T)
    (htight : Storage.dayEndTime flight 1 T - Storage.dayStartTime flight 1 < 2) :
    ∃ out, Storage.optimizeRoute cands hotels start T airport flight = some out ∧
      out.filter (fun c => decide (c.suggestedDay = some 1)) =
        [Storage.transitPlaceholder 1 airport] := by
  obtain ⟨k, rfl⟩ : ∃ k, T = k + 1 := ⟨T - 1, by omega⟩
  have hpd1 := Storage.processDay_transit htight hotels start airport
    { arena := cands, unvisited := List.range cands.length, out := [] }
  dsimp only at hpd1
  simp only [List.nil_append] at hpd1
  set st1 : OptState :=
    { arena := cands ++ [Storage.transitPlaceholder 1 airport],
      unvisited := List.range cands.length,
      out := [cands.length] } with hst1
  obtain ⟨st', newOut, hrun2, hout2, _, _, hframe2, _, _, _, hmem2, _⟩ :=
    Storage.runSteps_spec hotels start (k + 1) airport flight hhot
      (List.range' 2 k) st1
      (by
        intro i hi
        simp only [hst1, List.mem_range, List.length_append,
          List.length_singleton] at hi ⊢
        omega)
      (by simp [hst1, List.nodup_range])
      (List.nodup_range' _ _)
  have hn_lt : cands.length < st1.arena.length := by
    simp [hst1]
  have hn_nu : cands.length ∉ st1.unvisited := by
    simp [hst1, List.mem_range]
  have htr_rec : getC st'.arena cands.length =
      Storage.transitPlaceholder 1 airport := by
    rw [hframe2 cands.length hn_lt hn_nu, hst1]
    exact getC_append_new cands _
  refine ⟨getC st'.arena cands.length :: newOut.map (getC st'.arena), ?_, ?_⟩
  · unfold Storage.optimizeRoute
    rw [List.range'_succ]
    show (runSteps (Storage.processDay hotels start (k + 1) airport flight)
        (1 :: List.range' 2 k)
        { arena := cands, unvisited := List.range cands.length, out := [] }).map
      (fun st => st.out.map (getC st.arena)) = _
    simp only [runSteps, hpd1]
    rw [hrun2, Option.map_some']
    rw [hout2]
    simp [hst1]
  · rw [List.filter_cons]
    rw [htr_rec]
    rw [if_pos (by simp [Storage.transitPlaceholder])]
    have htail : (newOut.map (getC st'.arena)).filter
        (fun c => decide (c.suggestedDay = some 1)) = [] := by
      rw [List.filter_eq_nil]
      intro c hc
      rcases List.mem_map.1 hc with ⟨j, hj, rfl⟩
      obtain ⟨_, ⟨d, hd, hsd, _⟩, _⟩ := hmem2 j hj
      rw [List.mem_range'_1] at hd
      simp only [hsd, decide_eq_true_eq, Option.some_inj]
      omega
    rw [htail]

theorem C6_transit_day_witness :
    ∃ out, Storage.optimizeRoute [] [hMain] 0 2 none (some lateFlight) = some out ∧
      out.filter (fun c => decide (c.suggestedDay = some 1)) =
        [Storage.transitPlaceholder 1 none] :=
  C6_transit_day [] [hMain] 0 2 none (some lateFlight) (by simp) (by norm_num)
    (by norm_num [Storage.dayEndTime, Storage.dayStartTime, Storage.arrivalOf,
      lateFlight, Storage.parseTime_2200, max_def])

/-- C9: the Haversine distance metric (Earth radius 6371 km) is a total
function on real coordinates with no error cases, is non-negative, symmetric,
and zero on identical coordinates. -/
theorem C9_distance_metric :
    ∀ lat1 lon1 lat2 lon2 : ℝ,
      0 ≤ calculateDistance lat1 lon1 lat2 lon2 ∧
      calculateDistance lat1 lon1 lat2 lon2 =
        calculateDistance lat2 lon2 lat1 lon1 ∧
      calculateDistance lat1 lon1 lat1 lon1 = 0 :=
  fun lat1 lon1 lat2 lon2 =>
    ⟨calculateDistance_nonneg lat1 lon1 lat2 lon2,
     calculateDistance_symm lat1 lon1 lat2 lon2,
     calculateDistance_self lat1 lon1⟩

theorem filter_orderedInsert_score (s : ℝ) (a : CandidatePlace) :
    ∀ l : List CandidatePlace,
      (List.orderedInsert scoreGE a l).filter (fun c => decide (scoreKey c = s)) =
        if scoreKey a = s then
          a :: l.filter (fun c => decide (scoreKey c = s))
        else l.filter (fun c => decide (scoreKey c = s)) := by
  intro l
  induction l with
  | nil =>
    by_cases h : scoreKey a = s <;>
      simp [List.orderedInsert, List.filter, h]
  | cons b l ih =>
    rw [List.orderedInsert]
    by_cases hr : scoreGE a b
    · rw [if_pos hr]
      by_cases ha : scoreKey a = s
      · rw [if_pos ha]
        simp [List.filter_cons, ha]
      · rw [if_neg ha]
        simp [List.filter_cons, ha]
    · rw [if_neg hr]
      by_cases hb : scoreKey b = s
      · have ha : ¬ scoreKey a = s := by
          intro ha
          exact hr (le_of_eq (hb.trans ha.symm))
        rw [if_neg ha]
        simp only [List.filter_cons]
        rw [show (decide (scoreKey b = s)) = true by simp [hb]]
        simp only [if_true, ih, if_neg ha]
      · by_cases ha : scoreKey a = s
        · rw [if_pos ha]
          simp only [List.filter_cons]
          rw [show (decide (scoreKey b = s)) = false by simp [hb]]
          simp only [Bool.false_eq_true, if_false, ih, if_pos ha]
        · rw [if_neg ha]
          simp only [List.filter_cons]
          rw [show (decide (scoreKey b = s)) = false by simp [hb]]
          simp only [Bool.false_eq_true, if_false, ih, if_neg ha]

theorem filter_insertionSort_score (s : ℝ) :
    ∀ l : List CandidatePlace,
      (List.insertionSort scoreGE l).filter (fun c => decide (scoreKey c = s)) =
        l.filter (fun c => decide (scoreKey c = s)) := by
  intro l
  induction l with
  | nil => rfl
  | cons a l ih =>
    show (List.orderedInsert scoreGE a
        (List.insertionSort scoreGE l)).filter _ = _
    rw [filter_orderedInsert_score]
    by_cases ha : scoreKey a = s
    · rw [if_pos ha, ih]
      simp [List.filter_cons, ha]
    · rw [if_neg ha, ih]
      simp [List.filter_cons, ha]

/-- C7: both ranking iterations return a permutation of the scored input
records — none dropped, none duplicated — sorted descending by `score || 0`
(`Sorted scoreGE`), and stably: for every score value `s`, the records
scoring `s` appear in exactly their input order. -/
theorem C7_rank_permutation_sorted_stable :
    ∀ (cands : List CandidatePlace) (prefs : UserPreferences),
      (∀ hotels : List Hotel,
        (Engine.rankCandidates cands prefs hotels).Perm
            (cands.map (Engine.scorePlace prefs hotels)) ∧
        List.Sorted scoreGE (Engine.rankCandidates cands prefs hotels) ∧
        ∀ s : ℝ,
          (Engine.rankCandidates cands prefs hotels).filter
              (fun c => decide (scoreKey c = s)) =
            (cands.map (Engine.scorePlace prefs hotels)).filter
              (fun c => decide (scoreKey c = s))) ∧
      (∀ hotelLocation : Option Coord,
        (EngineV2.rankCandidates cands prefs hotelLocation).Perm
            (cands.map (EngineV2.scorePlace prefs hotelLocation)) ∧
        List.Sorted scoreGE (EngineV2.rankCandidates cands prefs hotelLocation) ∧
        ∀ s : ℝ,
          (EngineV2.rankCandidates cands prefs hotelLocation).filter
              (fun c => decide (scoreKey c = s)) =
            (cands.map (EngineV2.scorePlace prefs hotelLocation)).filter
              (fun c => decide (scoreKey c = s))) := by
  intro cands prefs
  constructor
  · intro hotels
    refine ⟨List.perm_insertionSort scoreGE _, ?_, fun s => ?_⟩
    · exact List.sorted_insertionSort scoreGE _
    · exact filter_insertionSort_score s _
  · intro hl
    refine ⟨List.perm_insertionSort scoreGE _, ?_, fun s => ?_⟩
    · exact List.sorted_insertionSort scoreGE _
    · exact filter_insertionSort_score s _

/-- C3: active-lodging resolution.  The containment test is the half-open
interval `[checkIn, checkOut)` at day granularity (false whenever either date
is missing); the resolver returns the first lodging containing the date,
otherwise the first lodging whose `checkOut` equals the date, otherwise the
last lodging of the list — and on a non-empty list it always returns a member
of the list. -/
theorem C3_active_lodging_resolution :
    (∀ d ci co : ℤ,
      Storage.isDateInHotelStay d (some ci) (some co) = true ↔ ci ≤ d ∧ d < co) ∧
    (∀ (d : ℤ) (checkIn : Option ℤ),
      Storage.isDateInHotelStay d checkIn none = false) ∧
    (∀ (d : ℤ) (checkOut : Option ℤ),
      Storage.isDateInHotelStay d none checkOut = false) ∧
    (∀ (d : ℤ) (hotels : List Hotel) (h : Hotel),
      hotels.find? (fun h => Storage.isDateInHotelStay d h.checkIn h.checkOut) =
        some h →
      Storage.activeHotelFor d hotels = some h) ∧
    (∀ (d : ℤ) (hotels : List Hotel) (h : Hotel),
      hotels.find? (fun h => Storage.isDateInHotelStay d h.checkIn h.checkOut) =
        none →
      hotels.find? (fun h => h.checkOut == some d) = some h →
      Storage.activeHotelFor d hotels = some h) ∧
    (∀ (d : ℤ) (hotels : List Hotel),
      hotels.find? (fun h => Storage.isDateInHotelStay d h.checkIn h.checkOut) =
        none →
      hotels.find? (fun h => h.checkOut == some d) = none →
      Storage.activeHotelFor d hotels = hotels.getLast?) ∧
    (∀ (d : ℤ) (hotels : List Hotel), hotels ≠ [] →
      ∃ h, Storage.activeHotelFor d hotels = some h ∧ h ∈ hotels) := by
  refine ⟨?_, ?_, ?_, ?_, ?_, ?_, ?_⟩
  · intro d ci co
    simp [Storage.isDateInHotelStay]
  · intro d checkIn
    cases checkIn <;> rfl
  · intro d checkOut
    rfl
  · intro d hotels h h1
    unfold Storage.activeHotelFor
    rw [h1]
  · intro d hotels h h1 h2
    unfold Storage.activeHotelFor
    rw [h1]
    dsimp only
    rw [h2]
  · intro d hotels h1 h2
    unfold Storage.activeHotelFor
    rw [h1]
    dsimp only
    rw [h2]
  · intro d hotels hne
    unfold Storage.activeHotelFor
    rcases h1 : hotels.find? (fun h =>
        Storage.isDateInHotelStay d h.checkIn h.checkOut) with _ | a
    · rw [h1]
      dsimp only
      rcases h2 : hotels.find? (fun h => h.checkOut == some d) with _ | a
      · rw [h2]
        dsimp only
        rcases h3 : hotels.getLast? with _ | a
        · exact absurd (List.getLast?_eq_none_iff.1 h3) hne
        · refine ⟨a, rfl, ?_⟩
          obtain ⟨hne2, ha⟩ :=
            List.mem_getLast?_eq_getLast (show a ∈ hotels.getLast? from h3)
          rw [ha]
          exact List.getLast_mem hne2
      · rw [h2]
        exact ⟨a, rfl, List.mem_of_find?_eq_some h2⟩
    · rw [h1]
      exact ⟨a, rfl, List.mem_of_find?_eq_some h1⟩

theorem C3_active_lodging_resolution_witness :
    Storage.isDateInHotelStay 11 (some 10) (some 12) = true ∧
    Storage.activeHotelFor 12 [hA, hB] = some hB ∧
    Storage.activeHotelFor 15 [hA, hB] = some hB ∧
    Storage.activeHotelFor 100 [hA, hB] = [hA, hB].getLast? ∧
    ∃ h, Storage.activeHotelFor 100 [hA, hB] = some h ∧ h ∈ [hA, hB] :=
  ⟨(C3_active_lodging_resolution.1 11 10 12).2 (by decide),
   C3_active_lodging_resolution.2.2.2.1 12 [hA, hB] hB rfl,
   C3_active_lodging_resolution.2.2.2.2.1 15 [hA, hB] hB rfl rfl,
   C3_active_lodging_resolution.2.2.2.2.2.1 100 [hA, hB] rfl rfl,
   C3_active_lodging_resolution.2.2.2.2.2.2 100 [hA, hB] (by simp)⟩

/-- C2 (code bug): in the greedy loop, `travelTime` divides the *score-weighted
selection metric* (`minDist` holds `distance − score/20`), not the travel
distance, by the assumed speed.  Exhibit: `cTime` sits at the hotel's own
coordinates (travel distance 0), scores 60 and lasts 2.3 h; the code commits
it to day 1 (the first conjuncts), which is only time-feasible because the
weighted metric `0 − 60/20 = −3` was divided by 30 (last conjunct) — under the
specified `travelDistance/assumedSpeed + fixedOverhead` advance, the
commitment would overflow the day window past the 0.5 h flex (fourth
conjunct). -/
theorem C2_weighted_travel_time :
    Storage.optimizeRoute [cTime] [hMain] 0 1 none none = some [cT2] ∧
    cT2.suggestedDay = some 1 ∧
    Storage.weightFrom [cT1] ⟨1, 2⟩ 0 =
      calculateDistance 1 2 cT1.latitude cT1.longitude - 60 / 20 ∧
    Storage.dayStartTime none 1 +
        (calculateDistance 1 2 cT1.latitude cT1.longitude / 30 + 0.3) +
        cT1.durationHours >
      Storage.dayEndTime none 1 1 + 0.5 ∧
    Storage.dayStartTime none 1 +
        (Storage.weightFrom [cT1] ⟨1, 2⟩ 0 / 30 + 0.3) + cT1.durationHours ≤
      Storage.dayEndTime none 1 1 + 0.5 := by
  have hw : Storage.weightFrom [cT1] ⟨1, 2⟩ 0 =
      calculateDistance 1 2 cT1.latitude cT1.longitude - 60 / 20 := by
    simp [Storage.weightFrom, getC, cT1, cTime]
  have hlat : cT1.latitude = 1 := rfl
  have hlng : cT1.longitude = 2 := rfl
  have hdur : cT1.durationHours = 2.3 := rfl
  refine ⟨Storage.run_cTime, rfl, hw, ?_, ?_⟩
  · rw [Storage.dayStartTime_none_one, Storage.dayEndTime_none_last,
      hlat, hlng, hdur, calculateDistance_self]
    norm_num
  · rw [Storage.dayStartTime_none_one, Storage.dayEndTime_none_last,
      hw, hlat, hlng, hdur, calculateDistance_self]
    norm_num

namespace Engine

theorem dayFilter_excludes_negative (wd : ℤ) (ah : Hotel) :
    ∀ (uv : List ℕ) (arena : List CandidatePlace) (i : ℕ),
      (getC arena i).score.getD 0 < 0 →
      i ∉ (dayFilter wd ah uv arena).2
  | [], arena => by
    intro i _ hmem
    rw [dayFilter] at hmem
    exact List.not_mem_nil i hmem
  | j :: rest, arena => by
    intro i hscore hmem
    rw [dayFilter] at hmem
    by_cases h1 : wd ∈ (getC arena j).closedDays
    · rw [if_pos h1] at hmem
      exact dayFilter_excludes_negative wd ah rest arena i hscore hmem
    · rw [if_neg h1] at hmem
      by_cases h2 : (getC arena j).score.getD 0 < 0
      · rw [if_pos h2] at hmem
        exact dayFilter_excludes_negative wd ah rest arena i hscore hmem
      · rw [if_neg h2] at hmem
        by_cases h3 : optTruthy ah.latitude ∧ optTruthy ah.longitude ∧
            (getC arena j).latitude ≠ 0 ∧ (getC arena j).longitude ≠ 0
        · rw [if_pos h3] at hmem
          dsimp only at hmem
          by_cases h4 : calculateDistance (ah.latitude.getD 0) (ah.longitude.getD 0)
              (getC arena j).latitude (getC arena j).longitude > 60
          · rw [if_pos h4] at hmem
            exact dayFilter_excludes_negative wd ah rest arena i hscore hmem
          · rw [if_neg h4] at hmem
            rcases List.mem_cons.1 hmem with rfl | hmem
            · exact h2 hscore
            · refine dayFilter_excludes_negative wd ah rest _ i ?_ hmem
              rwa [(Storage.getC_set_dist_stable arena j i _).2.2.1]
        · rw [if_neg h3] at hmem
          exact dayFilter_excludes_negative wd ah rest arena i hscore hmem

theorem score_cFar : scorePlace prefsBal [hPole] cFar = cFarScored := by
  have hnh : nearestHotel [hPole] cFar = some (6371 * Real.pi, "極點飯店") := by
    rw [nearestHotel, List.foldl_cons, List.foldl_nil]
    rw [if_pos (by norm_num [hPole, cFar, optTruthy])]
    rw [show (hPole.latitude.getD 0) = 90 from rfl,
      show (hPole.longitude.getD 0) = 45 from rfl,
      show cFar.latitude = -90 from rfl, show cFar.longitude = 45 from rfl,
      calculateDistance_pole]
    rfl
  have hgt : (80 : ℝ) < 6371 * Real.pi := pole_distance_gt_80
  have hnlt : ¬ (6371 * Real.pi < 5) := by
    intro h
    linarith
  have hround : round1 (-138 : ℝ) = -138 := by
    have h1 : ((-138 : ℝ) * 10) = ((-1380 : ℤ) : ℝ) := by norm_num
    rw [round1, h1, round_intCast]
    norm_num
  rw [scorePlace, hnh]
  dsimp only
  rw [if_neg (show ¬ (cFar.rating = 0) by norm_num [cFar]),
    if_pos (show prefsBal.focus = "balanced" from rfl),
    if_pos (show 6371 * Real.pi > 80 from hgt), if_neg hnlt,
    if_neg (show ¬ (cFar.priceLevel = 4) by norm_num [cFar])]
  rw [show cFar.rating = 5 from rfl]
  norm_num
  rw [hround]
  rfl

theorem rank_cFar :
    rankCandidates [cFar] prefsBal [hPole] = [cFarScored] := by
  rw [rankCandidates, List.map_cons, List.map_nil, score_cFar]
  rfl

theorem run_cFarScored :
    optimizeRoute [cFarScored] [hPole] 0 1 none = some [] := by
  have hneg : (getC [cFarScored] 0).score.getD 0 < 0 := by
    norm_num [getC, cFarScored, cFar]
  have hfind : ([hPole] : List Hotel).find?
      (fun h => isDateInHotelStay (dayDate 0 1) h.checkIn h.checkOut) =
      some hPole := by
    rw [List.find?_cons]
    rw [show isDateInHotelStay (dayDate 0 1) hPole.checkIn hPole.checkOut =
      true by decide]
  have hdf : dayFilter (dayOfWeek (dayDate 0 1)) hPole [0] [cFarScored] =
      ([cFarScored], []) := by
    rw [dayFilter]
    rw [if_neg (by simp [getC, cFarScored, cFar, List.mem_nil_iff])]
    rw [if_pos hneg]
    rw [dayFilter]
  have hpd : processDay [hPole] 0 none 3 1
      { arena := [cFarScored], unvisited := [0], out := [] } =
      some { arena := [cFarScored], unvisited := [0], out := [] } := by
    rw [processDay]
    rw [hfind]
    dsimp only
    rw [hdf]
    rfl
  rw [optimizeRoute]
  rw [if_neg (by simp)]
  simp only [List.length_singleton, show List.range 1 = [0] from rfl,
    show List.range' 1 1 = [1] from rfl,
    show max 3 ((1 + 1 - 1) / 1) = 3 from rfl]
  rw [show runSteps (processDay [hPole] 0 none 3) [1]
      { arena := [cFarScored], unvisited := [0], out := [] } =
      some { arena := [cFarScored], unvisited := [0], out := [] } by
    simp [runSteps, hpd]]
  rfl

end Engine

/-- C5 counterexample: the far outlier is penalized and kept by the ranking
stage, but the current optimizer's day filter hard-excludes negative scores,
so even as the only remaining candidate for the day it is never assigned —
refuting "remains eligible for assignment by the optimizer as a last
resort". -/
theorem C5_outlier_never_assigned_ctrex :
    Engine.rankCandidates [cFar] prefsBal [hPole] = [cFarScored] ∧
    cFarScored.score = some (-138) ∧
    Engine.optimizeRoute [cFarScored] [hPole] 0 1 none = some [] :=
  ⟨Engine.rank_cFar, rfl, Engine.run_cFarScored⟩

/-- C5 (corrected): a candidate beyond the hard outlier threshold receives the
large fixed penalty (here `62 - 200 = -138`) and stays in the ranked list —
ranking never drops a record — but it is *not* eligible as a last resort: the
optimizer's per-day filter excludes every candidate whose score is negative,
so a penalized outlier is never assigned even when no closer candidate
remains. -/
theorem C5_outlier_penalized_not_eligible :
    (∀ (cands : List CandidatePlace) (prefs : UserPreferences)
        (hotels : List Hotel),
      (Engine.rankCandidates cands prefs hotels).length = cands.length) ∧
    Engine.scorePlace prefsBal [hPole] cFar = cFarScored ∧
    cFarScored.score = some (-138) ∧
    (∀ (wd : ℤ) (ah : Hotel) (uv : List ℕ) (arena : List CandidatePlace) (i : ℕ),
      (getC arena i).score.getD 0 < 0 →
      i ∉ (Engine.dayFilter wd ah uv arena).2) ∧
    Engine.optimizeRoute [cFarScored] [hPole] 0 1 none = some [] := by
  refine ⟨?_, Engine.score_cFar, rfl, Engine.dayFilter_excludes_negative,
    Engine.run_cFarScored⟩
  intro cands prefs hotels
  calc (Engine.rankCandidates cands prefs hotels).length
      = (cands.map (Engine.scorePlace prefs hotels)).length :=
        (List.perm_insertionSort scoreGE _).length_eq
    _ = cands.length := List.length_map _ _

theorem C5_outlier_penalized_not_eligible_witness :
    (Engine.rankCandidates [cFar] prefsBal [hPole]).length =
      ([cFar] : List CandidatePlace).length ∧
    (0 : ℕ) ∉ (Engine.dayFilter (dayOfWeek (dayDate 0 1)) hPole
      [0] [cFarScored]).2 :=
  ⟨C5_outlier_penalized_not_eligible.1 [cFar] prefsBal [hPole],
   C5_outlier_penalized_not_eligible.2.2.2.1 (dayOfWeek (dayDate 0 1)) hPole
     [0] [cFarScored] 0 (by norm_num [getC, cFarScored, cFar])⟩

/-- C8: missing data never causes an error.  Ranking drops no record, a
candidate with a missing coordinate never resolves a nearest lodging and is
scored exactly as in the no-lodging (`-50`) branch, a lodging with a missing
coordinate is skipped by the nearest-lodging scan, the per-day distance of a
coordinate-less candidate degrades to the 999 sentinel instead of erroring,
and with at least one lodging the storageService optimizer always completes
with a result. -/
theorem C8_missing_data_total :
    (∀ (cands : List CandidatePlace) (prefs : UserPreferences)
        (hotels : List Hotel),
      (Engine.rankCandidates cands prefs hotels).length = cands.length) ∧
    (∀ (hotels : List Hotel) (place : CandidatePlace), place.latitude = 0 →
      Engine.nearestHotel hotels place = none ∧
      ∀ prefs : UserPreferences,
        (Engine.scorePlace prefs hotels place).score =
          (Engine.scorePlace prefs [] place).score) ∧
    (∀ (hotels : List Hotel) (h : Hotel) (place : CandidatePlace),
      h.latitude = none →
      Engine.nearestHotel (h :: hotels) place =
        Engine.nearestHotel hotels place) ∧
    (∀ (dayNum : ℕ) (ah : Hotel) (p : CandidatePlace), p.latitude = 0 →
      Storage.dayDist dayNum ah none p = 999) ∧
    (∀ (cands : List CandidatePlace) (hotels : List Hotel) (start : ℤ) (T : ℕ)
        (airport : Option Coord) (flight : Option FlightTimes), hotels ≠ [] →
      ∃ out, Storage.optimizeRoute cands hotels start T airport flight =
        some out) := by
  have hnone : ∀ (place : CandidatePlace), place.latitude = 0 →
      ∀ hotels, Engine.nearestHotel hotels place = none := by
    intro place h hotels
    induction hotels with
    | nil => rfl
    | cons hh hs ih =>
      show List.foldl _ _ (hh :: hs) = none
      rw [List.foldl_cons]
      rw [if_neg (by simp [h])]
      exact ih
  refine ⟨?_, ?_, ?_, ?_, ?_⟩
  · intro cands prefs hotels
    calc (Engine.rankCandidates cands prefs hotels).length
        = (cands.map (Engine.scorePlace prefs hotels)).length :=
          (List.perm_insertionSort scoreGE _).length_eq
      _ = cands.length := List.length_map _ _
  · intro hotels place h
    refine ⟨hnone place h hotels, ?_⟩
    intro prefs
    unfold Engine.scorePlace
    rw [hnone place h hotels, show Engine.nearestHotel [] place = none from rfl]
  · intro hotels h place hlat
    show List.foldl _ _ (h :: hotels) = List.foldl _ _ hotels
    rw [List.foldl_cons]
    rw [if_neg (by simp [hlat, optTruthy])]
  · intro dayNum ah p h
    unfold Storage.dayDist
    rw [if_neg (by simp [h])]
  · intro cands hotels start T airport flight hhot
    obtain ⟨st', newOut, hrun, _⟩ :=
      Storage.runSteps_spec hotels start T airport flight hhot (List.range' 1 T)
        { arena := cands, unvisited := List.range cands.length, out := [] }
        (by intro i hi; simpa using hi) (List.nodup_range _)
        (List.nodup_range' _ _)
    refine ⟨st'.out.map (getC st'.arena), ?_⟩
    unfold Storage.optimizeRoute
    rw [hrun, Option.map_some']

theorem C8_missing_data_total_witness :
    (Engine.rankCandidates [cFar] prefsBal [hPole]).length =
      ([cFar] : List CandidatePlace).length ∧
    Engine.nearestHotel [hPole] cNoGeo = none ∧
    (Engine.scorePlace prefsBal [hPole] cNoGeo).score =
      (Engine.scorePlace prefsBal [] cNoGeo).score ∧
    Engine.nearestHotel [hNoGeo] cTime = Engine.nearestHotel [] cTime ∧
    Storage.dayDist 1 hMain none cNoGeo = 999 ∧
    ∃ out, Storage.optimizeRoute [] [hMain] 0 1 none none = some out :=
  ⟨C8_missing_data_total.1 [cFar] prefsBal [hPole],
   (C8_missing_data_total.2.1 [hPole] cNoGeo rfl).1,
   (C8_missing_data_total.2.1 [hPole] cNoGeo rfl).2 prefsBal,
   C8_missing_data_total.2.2.1 [] hNoGeo cTime rfl,
   C8_missing_data_total.2.2.2.1 1 hMain cNoGeo rfl,
   C8_missing_data_total.2.2.2.2 [] [hMain] 0 1 none none (by simp)⟩
